import Mathlib

/-!
# cellularlandscapes: the automaton core

A shallow embedding of the simulation core of `cellularlandscapes.c`
(topology, grid state, the two rule evaluators, the step pass and the
brushes) and of the parts around it that write cells or print rules
(`landscape_init_memory`, `print_lifelike_rule`, `pointer_motion`,
`keyboard_handle_key`), followed by theorems about it.

Conventions of the embedding.

* `size_t` values are `Nat` (below `2 ^ 64`), `int` values are `Int`
  (between `INT_MIN` and `INT_MAX`).  The conversions the C code performs
  (`int` to `size_t` on assignment and in mixed comparisons, `size_t` to `int`
  in the `(int)` casts and at calls, `size_t` subtraction) are the explicit
  functions `size_t_of_int`, `int_of_size_t` and `size_t_sub`.
* The two cell buffers `flip` and `flop` are lists of cell values; the pointer
  `show` aliases one of them and is recorded by the flag `show_is_flip`.
* The function pointers `quotient` and `automata` are tags, dispatched by
  `landscape.resolve` and `landscape.run_automata`.
* A read outside a buffer (undefined in C) yields `0` and a write outside a
  buffer is dropped; for the accesses made through the topology the safety
  theorem shows that neither happens.
-/

set_option autoImplicit false

namespace CellularLandscapes

/-! ## Machine integers -/

/-- Number of values of a `size_t`: `2 ^ 64`. -/
def SIZE_MOD : Nat := 18446744073709551616

/-- Number of values of an `int` or `uint32_t`: `2 ^ 32`. -/
def INT_MOD : Nat := 4294967296

/-- Largest `int`: `2 ^ 31 - 1`. -/
def INT_MAX : Int := 2147483647

/-- Smallest `int`: `-2 ^ 31`. -/
def INT_MIN : Int := -2147483648

/-- Conversion of an `int` to `size_t`: reduction modulo `2 ^ 64`. -/
def size_t_of_int (i : Int) : Nat := (i % (SIZE_MOD : Int)).toNat

/-- Conversion of a `size_t` to `int` (the `(int)` cast, or a `size_t` argument
passed for an `int` parameter): the low 32 bits, read as two's complement. -/
def int_of_size_t (n : Nat) : Int :=
  if n % INT_MOD < 2147483648 then ((n % INT_MOD : Nat) : Int)
  else ((n % INT_MOD : Nat) : Int) - (INT_MOD : Int)

/-- Subtraction of `size_t` values, wrapping modulo `2 ^ 64`. -/
def size_t_sub (a b : Nat) : Nat := (a + SIZE_MOD - b % SIZE_MOD) % SIZE_MOD

/-- Addition of `size_t` values, wrapping modulo `2 ^ 64`. -/
def size_t_add (a b : Nat) : Nat := (a + b) % SIZE_MOD

/-! ## The landscape -/

/-- The values of the function pointer `quotient`. -/
inductive topology where
  | clamped
  | quotient_torus
  deriving DecidableEq

/-- The values of the function pointer `automata`. -/
inductive evaluator where
  | twod_life_like
  | oned
  deriving DecidableEq

/-- The simulation part of `struct landscape`: geometry, dynamics and the two
cell buffers.  `show_is_flip` records `show == flip`. -/
structure landscape where
  width : Nat
  height : Nat
  quotient : topology
  rule : Nat
  automata : evaluator
  show_is_flip : Bool
  flip : List Nat
  flop : List Nat
  deriving DecidableEq

/-- The buffer `show` points to. -/
def landscape.front (l : landscape) : List Nat :=
  if l.show_is_flip then l.flip else l.flop

/-- The buffer `show` does not point to (the write target of `landscape_set`). -/
def landscape.scratch (l : landscape) : List Nat :=
  if l.show_is_flip then l.flop else l.flip

/-! ## Topology -/

/-- Source: `clamped`.  `*X = x` converts to `size_t`; the comparisons
`x >= l->width` and `y >= l->height` are taken in `size_t`. -/
def clamped (l : landscape) (x y : Int) : Nat × Nat :=
  let X0 := size_t_of_int x
  let Y0 := size_t_of_int y
  let X1 := if x < 0 then 0 else X0
  let Y1 := if y < 0 then 0 else Y0
  let X2 := if size_t_of_int x ≥ l.width then size_t_sub l.width 1 else X1
  let Y2 := if size_t_of_int y ≥ l.height then size_t_sub l.height 1 else Y1
  (X2, Y2)

/-- Source: `quotient_torus`.  The comparisons against `(int)l->height - 1` and
`(int)l->width - 1` are taken in `int`. -/
def quotient_torus (l : landscape) (x y : Int) : Nat × Nat :=
  let Y :=
    if y < 0 then size_t_sub l.height 1
    else if y > int_of_size_t l.height - 1 then 0
    else size_t_of_int y
  let X :=
    if x > int_of_size_t l.width - 1 then 0
    else if x < 0 then size_t_sub l.width 1
    else size_t_of_int x
  (X, Y)

/-- The call `ls->quotient(ls, x, y, &X, &Y)`. -/
def landscape.resolve (l : landscape) (x y : Int) : Nat × Nat :=
  match l.quotient with
  | topology.clamped => clamped l x y
  | topology.quotient_torus => quotient_torus l x y

/-! ## Grid state -/

/-- Source: `landscape_get`, a read of `show[Y*width + X]`.  The index is
computed without wrap-around: on a well-formed landscape both dimensions are
below `2 ^ 31`, so the `size_t` arithmetic cannot overflow. -/
def landscape_get (l : landscape) (x y : Int) : Nat :=
  let p := l.resolve x y
  l.front.getD (p.2 * l.width + p.1) 0

/-- Source: `landscape_set`, a write into the buffer that is not `show`. -/
def landscape_set (l : landscape) (x y : Int) (val : Nat) : landscape :=
  let p := l.resolve x y
  if l.show_is_flip then
    { l with flop := l.flop.set (p.2 * l.width + p.1) val }
  else
    { l with flip := l.flip.set (p.2 * l.width + p.1) val }

/-- Source: `landscape_set_front`, a write into `show`. -/
def landscape_set_front (l : landscape) (x y : Int) (val : Nat) : landscape :=
  let p := l.resolve x y
  if l.show_is_flip then
    { l with flip := l.flip.set (p.2 * l.width + p.1) val }
  else
    { l with flop := l.flop.set (p.2 * l.width + p.1) val }

/-- Source: `landscape_count_neighbours`, in the order of the C expression. -/
def landscape_count_neighbours (l : landscape) (x y : Int) : Nat :=
  landscape_get l x (y + 1)
    + landscape_get l (x + 1) (y + 1)
    + landscape_get l (x + 1) y
    + landscape_get l (x + 1) (y - 1)
    + landscape_get l x (y - 1)
    + landscape_get l (x - 1) (y + 1)
    + landscape_get l (x - 1) y
    + landscape_get l (x - 1) (y - 1)

/-! ## Rule evaluators -/

/-- Source: the macro `survive_bit`, `(uint32_t)1 << x`.  A shift count of 32
or more, which C leaves undefined and which needs cell values other than 0/1,
shifts the bit out. -/
def survive_bit (x : Nat) : Nat := (1 <<< x) % INT_MOD

/-- Source: the macro `birth_bit`, `(uint32_t)1 << (9 + x)`. -/
def birth_bit (x : Nat) : Nat := (1 <<< (9 + x)) % INT_MOD

/-- Source: the global `conway`. -/
def conway : Nat := (birth_bit 3 ||| survive_bit 2) ||| survive_bit 3

/-- Source: `twod_life_like`.  `!!e` is `1` when `e` is nonzero and `0`
otherwise. -/
def twod_life_like (l : landscape) (x y : Int) (rule : Nat) : landscape :=
  let n := landscape_count_neighbours l x y
  if landscape_get l x y ≠ 0 then
    landscape_set l x y (if (survive_bit n) &&& rule ≠ 0 then 1 else 0)
  else
    landscape_set l x y (if (birth_bit n) &&& rule ≠ 0 then 1 else 0)

/-- Source: `oned`.  The comparison `x == landscape->width - 1` is taken in
`size_t`; `parent_pattern` is a `uint8_t`.  The shift `1 << parent_pattern` is
the mathematical one; a count above 7, which needs cell values other than
0/1, selects no bit of the rule byte. -/
def oned (l : landscape) (x y : Int) (rule : Nat) : landscape :=
  if y = 0 ∨ x = 0 ∨ size_t_of_int x = size_t_sub l.width 1 then
    let v := landscape_get l x y
    landscape_set l x y v
  else
    let parent_pattern :=
      (((landscape_get l (x - 1) (y - 1)) <<< 2)
        ||| ((landscape_get l x (y - 1)) <<< 1)
        ||| (landscape_get l (x + 1) (y - 1))) % 256
    let update := if (rule &&& 0xff) &&& (1 <<< parent_pattern) ≠ 0 then 1 else 0
    landscape_set l x y update

/-- The call `l->automata(l, x, y, rule)`. -/
def landscape.run_automata (l : landscape) (x y : Int) (rule : Nat) : landscape :=
  match l.automata with
  | evaluator.twod_life_like => twod_life_like l x y rule
  | evaluator.oned => oned l x y rule

/-! ## Step engine -/

/-- Source: `landscape_step`.  The outer loop runs `x` over `0 .. width-1`, the
inner loop `y` over `0 .. height-1`, both with `int` counters (so the ranges
are those of the C loops for dimensions within `int` range); then `show` is
pointed at the other buffer.  The flag `wl.redraw` is not part of the
landscape. -/
def landscape_step (l : landscape) : landscape :=
  let l1 := (List.range l.width).foldl
    (fun s x => (List.range l.height).foldl
      (fun t y => t.run_automata (x : Int) (y : Int) t.rule) s) l
  { l1 with show_is_flip := !l1.show_is_flip }

/-! ## Brushes -/

/-- Source: `brush_default`.  The resolved `size_t` pair is passed to the `int`
parameters of `landscape_set_front`. -/
def brush_default (l : landscape) (x y : Int) : landscape :=
  let p := l.resolve x y
  landscape_set_front l (int_of_size_t p.1) (int_of_size_t p.2) 1

/-- Source: `brush_conway_glider`.  The offsets are computed in `size_t` and
then passed to the `int` parameters of `landscape_set_front`. -/
def brush_conway_glider (l : landscape) (x y : Int) : landscape :=
  let p := l.resolve x y
  let X := p.1
  let Y := p.2
  let l1 := landscape_set_front l (int_of_size_t (size_t_sub X 1)) (int_of_size_t (size_t_add Y 1)) 1
  let l2 := landscape_set_front l1 (int_of_size_t X) (int_of_size_t (size_t_sub Y 1)) 1
  let l3 := landscape_set_front l2 (int_of_size_t X) (int_of_size_t (size_t_add Y 1)) 1
  let l4 := landscape_set_front l3 (int_of_size_t (size_t_add X 1)) (int_of_size_t Y) 1
  landscape_set_front l4 (int_of_size_t (size_t_add X 1)) (int_of_size_t (size_t_add Y 1)) 1

/-! ## Well-formed landscapes -/

/-- The landscapes the simulation runs on: both dimensions are positive and
within the range of the `int` coordinates that address cells (the loop counters
of `landscape_step` are `int`), and both buffers hold `width * height` cells,
as after `landscape_init_memory`. -/
def landscape.wf (l : landscape) : Prop :=
  1 ≤ l.width ∧ (l.width : Int) ≤ INT_MAX ∧
  1 ≤ l.height ∧ (l.height : Int) ≤ INT_MAX ∧
  l.flip.length = l.width * l.height ∧ l.flop.length = l.width * l.height

instance (l : landscape) : Decidable l.wf := by
  unfold landscape.wf; infer_instance

/-- Every cell of the buffer is `0` (dead) or `1` (alive). -/
def binary_cells (b : List Nat) : Prop := ∀ v ∈ b, v = 0 ∨ v = 1

instance (b : List Nat) : Decidable (binary_cells b) := by
  unfold binary_cells; infer_instance

/-! ## Sample landscapes -/

/-- An all-dead `8 × 8` torus running Conway's rule, `show` pointing at `flip`. -/
def torus8 : landscape :=
  { width := 8, height := 8, quotient := topology.quotient_torus, rule := conway,
    automata := evaluator.twod_life_like, show_is_flip := true,
    flip := List.replicate 64 0, flop := List.replicate 64 0 }

/-- An all-dead `4 × 4` clamped landscape running elementary rule 110. -/
def clamped4 : landscape :=
  { width := 4, height := 4, quotient := topology.clamped, rule := 110,
    automata := evaluator.oned, show_is_flip := true,
    flip := List.replicate 16 0, flop := List.replicate 16 0 }

/-! ## Values written by the evaluators, and passes over lists of cells -/

/-- The value `twod_life_like` passes to `landscape_set`. -/
def twod_life_like_val (l : landscape) (x y : Int) (rule : Nat) : Nat :=
  let n := landscape_count_neighbours l x y
  if landscape_get l x y ≠ 0 then
    (if (survive_bit n) &&& rule ≠ 0 then 1 else 0)
  else
    (if (birth_bit n) &&& rule ≠ 0 then 1 else 0)

/-- The value `oned` passes to `landscape_set`. -/
def oned_val (l : landscape) (x y : Int) (rule : Nat) : Nat :=
  if y = 0 ∨ x = 0 ∨ size_t_of_int x = size_t_sub l.width 1 then
    landscape_get l x y
  else
    let parent_pattern :=
      (((landscape_get l (x - 1) (y - 1)) <<< 2)
        ||| ((landscape_get l x (y - 1)) <<< 1)
        ||| (landscape_get l (x + 1) (y - 1))) % 256
    if (rule &&& 0xff) &&& (1 <<< parent_pattern) ≠ 0 then 1 else 0

/-- The value the active evaluator passes to `landscape_set`. -/
def landscape.automata_val (l : landscape) (x y : Int) (rule : Nat) : Nat :=
  match l.automata with
  | evaluator.twod_life_like => twod_life_like_val l x y rule
  | evaluator.oned => oned_val l x y rule

/-- The landscape with the contents of the buffer that is not `show` replaced. -/
def landscape.with_scratch (l : landscape) (b : List Nat) : landscape :=
  if l.show_is_flip then { l with flop := b } else { l with flip := b }

/-- The evaluator calls of a step pass, made in the order of the list `cells`
instead of the order of the two loops of `landscape_step`. -/
def run_cells (l : landscape) (cells : List (Nat × Nat)) : landscape :=
  cells.foldl (fun t c => t.run_automata (c.1 : Int) (c.2 : Int) t.rule) l

/-- The cells in the order the two loops of `landscape_step` visit them:
`x` outer, `y` inner. -/
def step_cells (l : landscape) : List (Nat × Nat) :=
  (List.range l.width).flatMap fun x => (List.range l.height).map fun y => (x, y)

/-- The value of bit `n` of `r`, as `0` or `1`. -/
def bit_of (r n : Nat) : Nat := (r.testBit n).toNat

/-- Row-major index of a cell. -/
def cell_index (l : landscape) (c : Nat × Nat) : Nat := c.2 * l.width + c.1

/-- The value the active evaluator computes, from `show`, for the cell of
row-major index `i`. -/
def next_value (l : landscape) (i : Nat) : Nat :=
  l.automata_val ((i % l.width : Nat) : Int) ((i / l.width : Nat) : Int) l.rule

/-- The buffer of the values the active evaluator computes for all cells. -/
def next_cells (l : landscape) : List Nat :=
  (List.range (l.width * l.height)).map (next_value l)

/-- The landscape with the contents of the buffer `show` points to replaced. -/
def landscape.with_front (l : landscape) (b : List Nat) : landscape :=
  if l.show_is_flip then { l with flip := b } else { l with flop := b }

/-- The glider of `brush_conway_glider` anchored at `(3, 3)`, as cells `(x, y)`. -/
def glider_cells : List (Nat × Nat) := [(2, 4), (3, 2), (3, 4), (4, 3), (4, 4)]

/-- The cells in row-major order: `y` outer, `x` inner. -/
def row_cells (l : landscape) : List (Nat × Nat) :=
  (List.range l.height).flatMap fun y => (List.range l.width).map fun x => (x, y)

/-- The eight neighbour offsets, in the order `landscape_count_neighbours`
adds them. -/
def neighbour_offsets : List (Int × Int) :=
  [(0, 1), (1, 1), (1, 0), (1, -1), (0, -1), (-1, 1), (-1, 0), (-1, -1)]

/-! ## Console output -/

/-- Source: `print_lifelike_rule`; the result is the text written to `stdout`.
`%d` of the loop counter is its decimal rendering. -/
def print_lifelike_rule (rule : Nat) : String :=
  let o1 := "B"
  let o2 := (List.range 9).foldl
    (fun o i => if rule &&& birth_bit i ≠ 0 then o ++ Nat.repr i else o) o1
  let o3 := o2 ++ "/S"
  let o4 := (List.range 9).foldl
    (fun o i => if rule &&& (1 <<< i) ≠ 0 then o ++ Nat.repr i else o) o3
  o4 ++ "\n"

/-! ## Input handlers -/

/-- Multiplication of `size_t` values, wrapping modulo `2 ^ 64`. -/
def size_t_mul (a b : Nat) : Nat := (a * b) % SIZE_MOD

/-- Key code of `Esc`; this and the codes below are those of
`linux/input-event-codes.h`. -/
def KEY_ESC : Nat := 1
/-- Key code of `1`. -/
def KEY_1 : Nat := 2
/-- Key code of `2`. -/
def KEY_2 : Nat := 3
/-- Key code of `-`. -/
def KEY_MINUS : Nat := 12
/-- Key code of `=`. -/
def KEY_EQUAL : Nat := 13
/-- Key code of `R`. -/
def KEY_R : Nat := 19
/-- Key code of `P`. -/
def KEY_P : Nat := 25
/-- Key code of `D`. -/
def KEY_D : Nat := 32
/-- Key code of `G`. -/
def KEY_G : Nat := 34
/-- Key code of `H`. -/
def KEY_H : Nat := 35
/-- Key code of `J`. -/
def KEY_J : Nat := 36
/-- Key code of `K`. -/
def KEY_K : Nat := 37
/-- Key code of `L`. -/
def KEY_L : Nat := 38
/-- Key code of `C`. -/
def KEY_C : Nat := 46
/-- Key code of `N`. -/
def KEY_N : Nat := 49
/-- Key code of the space bar. -/
def KEY_SPACE : Nat := 57
/-- Button code of the left pointer button, `0x110`. -/
def BTN_LEFT : Nat := 272
/-- Button code of the right pointer button, `0x111`. -/
def BTN_RIGHT : Nat := 273
/-- Error number `ENOMEM` of `errno.h`. -/
def ENOMEM : Int := 12

/-- The values of the function pointer `wl.brush`. -/
inductive brush_tag where
  | brush_default
  | brush_conway_glider
  deriving DecidableEq

/-- The fields of the global `wl` that the input handlers read or write. -/
structure wl_state where
  pointer_cell : Int
  pointer_held : Nat
  running : Bool
  paused : Bool
  redraw : Bool
  brush : brush_tag
  deriving DecidableEq

/-- What an input handler works on: the landscape it receives as `data`, the
global `wl`, and the text written so far to `stdout` and to `stderr`. -/
structure session where
  ls : landscape
  wl : wl_state
  out : String
  err : String
  deriving DecidableEq

/-- A read of `b[i]` with a signed index; outside the buffer it yields `0`. -/
def buf_read (b : List Nat) (i : Int) : Nat :=
  if 0 ≤ i then b.getD i.toNat 0 else 0

/-- A write `b[i] = v` with a signed index; outside the buffer it is dropped. -/
def buf_write (b : List Nat) (i : Int) (v : Nat) : List Nat :=
  if 0 ≤ i then b.set i.toNat v else b

/-- The call `memset(b, 0, n)`: the first `n` cells become `0`. -/
def memset_zero (b : List Nat) (n : Nat) : List Nat :=
  List.replicate (min n b.length) 0 ++ b.drop n

/-- Source: `landscape_init_memory`.  `flip_ok` and `flop_ok` say whether the two
`calloc` calls succeed; on failure the result is `-ENOMEM`. -/
def landscape_init_memory (l : landscape) (flip_ok flop_ok : Bool) : Except Int landscape :=
  let area := size_t_mul l.width l.height
  if flip_ok && flop_ok then
    Except.ok { l with flip := List.replicate area 0, flop := List.replicate area 0,
                       show_is_flip := true }
  else
    Except.error (-ENOMEM)

/-- Source: `pointer_motion`.  `fx` and `fy` are the values of
`wl_fixed_to_int(x)` and `wl_fixed_to_int(y)`, `cell_width` is
`l->cell_width`; the quotient and the product are taken in `size_t` and stored
in the `int32_t` variable `tmp`.  `cell_on` is `1` and `cell_off` is `0`.  A
division by a `cell_width` of `0`, undefined in C, yields `0`. -/
def pointer_motion (l : landscape) (w : wl_state) (cell_width : Nat) (fx fy : Int) :
    landscape × wl_state :=
  let tmp := int_of_size_t
    (size_t_add (size_t_mul (size_t_of_int fy / cell_width) l.width)
      (size_t_of_int fx / cell_width))
  if tmp < 0 ∨ size_t_of_int tmp ≥ size_t_mul l.width l.height then
    (l, w)
  else
    let w1 := { w with pointer_cell := tmp }
    let l1 :=
      if w1.pointer_held = BTN_LEFT then l.with_front (buf_write l.front tmp 1)
      else if w1.pointer_held = BTN_RIGHT then l.with_front (buf_write l.front tmp 0)
      else l
    (l1, { w1 with redraw := true })

/-- Source: `landscape_debug`, the text written to `stderr`.  The coordinates
are computed from `wl.pointer_cell` in `size_t` and stored in `int`. -/
def landscape_debug (l : landscape) (w : wl_state) : String :=
  let x := int_of_size_t (size_t_of_int w.pointer_cell % l.width)
  let y := int_of_size_t (size_t_of_int w.pointer_cell / l.width)
  Nat.repr (landscape_get l (x - 1) (y - 1)) ++ " " ++ Nat.repr (landscape_get l x (y - 1))
    ++ " " ++ Nat.repr (landscape_get l (x + 1) (y - 1)) ++ "\n"
    ++ Nat.repr (landscape_get l (x - 1) y) ++ " " ++ Nat.repr (landscape_get l x y)
    ++ " " ++ Nat.repr (landscape_get l (x + 1) y) ++ "\n"
    ++ Nat.repr (landscape_get l (x - 1) (y + 1)) ++ " " ++ Nat.repr (landscape_get l x (y + 1))
    ++ " " ++ Nat.repr (landscape_get l (x + 1) (y + 1)) ++ "\n\n"

/-- The statement `if (c) body` of a handler. -/
def run_if (c : Bool) (body : session → session) (s : session) : session :=
  if c then body s else s

/-- The test `key == k && state`. -/
def key_pressed (key state k : Nat) : Bool := key == k && state != 0

/-- The `KEY_R` branch of `keyboard_handle_key`: both buffers are zeroed, the
seed cell `show[width/2]` is set for `oned`, and the simulation is paused. -/
def on_key_r (s : session) : session :=
  let n := size_t_mul s.ls.width s.ls.height
  let l1 := { s.ls with flip := memset_zero s.ls.flip n, flop := memset_zero s.ls.flop n }
  let l2 := if l1.automata = evaluator.oned then l1.with_front (l1.front.set (l1.width / 2) 1)
    else l1
  { s with ls := l2, wl := { s.wl with paused := true } }

/-- The `KEY_P` branch: `show[wl.pointer_cell] = !show[wl.pointer_cell]`. -/
def on_key_p (s : session) : session :=
  let v := buf_read s.ls.front s.wl.pointer_cell
  let b := buf_write s.ls.front s.wl.pointer_cell (if v = 0 then 1 else 0)
  { s with ls := s.ls.with_front b }

/-- The `KEY_G` branch: the other brush is selected. -/
def on_key_g (s : session) : session :=
  { s with wl := { s.wl with brush :=
      if s.wl.brush = brush_tag.brush_default then brush_tag.brush_conway_glider
      else brush_tag.brush_default } }

/-- The statement `wl.pointer_cell %= ls->width * ls->height`, taken in `size_t`
and stored in the `int32_t` field. -/
def pointer_cell_wrap (l : landscape) (c : Int) : Int :=
  int_of_size_t (size_t_of_int c % size_t_mul l.width l.height)

/-- The `KEY_J` branch: `wl.pointer_cell += ls->width`, then the wrap. -/
def on_key_j (s : session) : session :=
  let c := int_of_size_t (size_t_add (size_t_of_int s.wl.pointer_cell) s.ls.width)
  { s with wl := { s.wl with pointer_cell := pointer_cell_wrap s.ls c } }

/-- The `KEY_K` branch: `wl.pointer_cell -= ls->width - ls->width * ls->height`,
then the wrap. -/
def on_key_k (s : session) : session :=
  let c := int_of_size_t (size_t_sub (size_t_of_int s.wl.pointer_cell)
    (size_t_sub s.ls.width (size_t_mul s.ls.width s.ls.height)))
  { s with wl := { s.wl with pointer_cell := pointer_cell_wrap s.ls c } }

/-- The `KEY_H` branch: `wl.pointer_cell--` (not wrapped: the decrement of the
smallest `int32_t` is undefined in C). -/
def on_key_h (s : session) : session :=
  { s with wl := { s.wl with pointer_cell := s.wl.pointer_cell - 1 } }

/-- The `KEY_L` branch: `wl.pointer_cell++` (not wrapped: the increment of the
largest `int32_t` is undefined in C). -/
def on_key_l (s : session) : session :=
  { s with wl := { s.wl with pointer_cell := s.wl.pointer_cell + 1 } }

/-- The `KEY_SPACE` branch: `wl.paused = !wl.paused`. -/
def on_key_space (s : session) : session :=
  { s with wl := { s.wl with paused := !s.wl.paused } }

/-- The `KEY_D` branch: `landscape_debug`. -/
def on_key_d (s : session) : session :=
  { s with err := s.err ++ landscape_debug s.ls s.wl }

/-- The call `landscape_step(ls)` made from a handler; it also sets
`wl.redraw`. -/
def do_step (s : session) : session :=
  { s with ls := landscape_step s.ls, wl := { s.wl with redraw := true } }

/-- The `KEY_ESC` branch: `wl.running = 0`. -/
def on_key_esc (s : session) : session :=
  { s with wl := { s.wl with running := false } }

/-- The `KEY_C` branch: `ls->rule = conway`. -/
def on_key_c (s : session) : session :=
  { s with ls := { s.ls with rule := conway } }

/-- The `KEY_2` branch: `ls->automata = twod_life_like`. -/
def on_key_2 (s : session) : session :=
  { s with ls := { s.ls with automata := evaluator.twod_life_like } }

/-- The `KEY_1` branch: pause, rule 110, `oned`, `clamped`. -/
def on_key_1 (s : session) : session :=
  { s with ls := { s.ls with rule := 110, automata := evaluator.oned,
                             quotient := topology.clamped },
           wl := { s.wl with paused := true } }

/-- The report after a rule change: `print_lifelike_rule` on `stdout` for
`twod_life_like`, the Wolfram number on `stderr` otherwise. -/
def report_rule (s : session) : session :=
  if s.ls.automata = evaluator.twod_life_like then
    { s with out := s.out ++ print_lifelike_rule s.ls.rule }
  else
    { s with err := s.err ++ "wolfram number: " ++ Nat.repr (s.ls.rule &&& 0xff) ++ "\n" }

/-- The `KEY_EQUAL` branch: `ls->rule++` in `uint32_t`, then the report. -/
def on_key_equal (s : session) : session :=
  report_rule { s with ls := { s.ls with rule := (s.ls.rule + 1) % INT_MOD } }

/-- The `KEY_MINUS` branch: `ls->rule--` in `uint32_t`, then the report. -/
def on_key_minus (s : session) : session :=
  report_rule { s with ls := { s.ls with rule := (s.ls.rule + (INT_MOD - 1)) % INT_MOD } }

/-- Source: `keyboard_handle_key`.  The branches run in the order of the source.
In the `KEY_N` branch the source reads `if (!wl.paused) return` followed, with
no semicolon in between, by `landscape_step(ls);`, which is the single statement
`if (!wl.paused) return landscape_step(ls);`: when the simulation is not paused
the step is made and the handler returns, and when it is paused the branch does
nothing and the handler goes on to the remaining tests. -/
def keyboard_handle_key (s : session) (key state : Nat) : session :=
  let s := run_if (key_pressed key state KEY_R) on_key_r s
  let s := run_if (key_pressed key state KEY_P) on_key_p s
  let s := run_if (key_pressed key state KEY_G) on_key_g s
  let s := run_if (key_pressed key state KEY_J) on_key_j s
  let s := run_if (key_pressed key state KEY_K) on_key_k s
  let s := run_if (key_pressed key state KEY_H) on_key_h s
  let s := run_if (key_pressed key state KEY_L) on_key_l s
  let s := run_if (key_pressed key state KEY_SPACE) on_key_space s
  let s := run_if (key_pressed key state KEY_D) on_key_d s
  if key_pressed key state KEY_N && !s.wl.paused then
    do_step s
  else
    let s := run_if (key_pressed key state KEY_ESC) on_key_esc s
    let s := run_if (key_pressed key state KEY_C) on_key_c s
    let s := run_if (key_pressed key state KEY_2) on_key_2 s
    let s := run_if (key_pressed key state KEY_1) on_key_1 s
    let s := run_if (key_pressed key state KEY_EQUAL) on_key_equal s
    run_if (key_pressed key state KEY_MINUS) on_key_minus s

/-- Both buffers hold only `0` and `1`. -/
def landscape.binary (l : landscape) : Prop := binary_cells l.flip ∧ binary_cells l.flop

instance (l : landscape) : Decidable l.binary := by
  unfold landscape.binary; infer_instance

/-- A paused session on the `8 × 8` torus with the glider stamped at `(3, 3)`. -/
def paused_glider : session :=
  { ls := brush_conway_glider torus8 3 3,
    wl := { pointer_cell := 27, pointer_held := 0, running := true, paused := true,
            redraw := false, brush := brush_tag.brush_default },
    out := "", err := "" }

/-- The session `paused_glider` with the simulation running (`wl.paused = 0`). -/
def running_glider : session :=
  { paused_glider with wl := { paused_glider.wl with paused := false } }

/-! ## Facts about the integer conversions -/

theorem size_t_of_int_nonneg (i : Int) (h0 : 0 ≤ i) (h1 : i < 18446744073709551616) :
    size_t_of_int i = i.toNat := by
  unfold size_t_of_int SIZE_MOD
  have : i % ((18446744073709551616 : Nat) : Int) = i := Int.emod_eq_of_lt h0 (by norm_num; omega)
  rw [this]

theorem size_t_of_int_natCast (n : Nat) (h : n < 18446744073709551616) :
    size_t_of_int (n : Int) = n := by
  rw [size_t_of_int_nonneg _ (by omega) (by omega)]; simp

theorem size_t_of_int_neg (i : Int) (h0 : -2147483648 ≤ i) (h1 : i < 0) :
    size_t_of_int i = (i + 18446744073709551616).toNat := by
  unfold size_t_of_int SIZE_MOD
  have e : i % ((18446744073709551616 : Nat) : Int) = i + 18446744073709551616 := by
    have h2 : (i + 18446744073709551616) % ((18446744073709551616 : Nat) : Int) = i + 18446744073709551616 :=
      Int.emod_eq_of_lt (by omega) (by norm_num; omega)
    have h3 : (i + 18446744073709551616) % ((18446744073709551616 : Nat) : Int) = i % ((18446744073709551616 : Nat) : Int) := by
      have : (18446744073709551616 : Int) = ((18446744073709551616 : Nat) : Int) := by norm_num
      rw [this, Int.add_emod_self]
    rw [← h3, h2]
  rw [e]

theorem int_of_size_t_small (n : Nat) (h : n < 2147483648) : int_of_size_t n = (n : Int) := by
  unfold int_of_size_t INT_MOD
  have e : n % 4294967296 = n := Nat.mod_eq_of_lt (by omega)
  rw [e, if_pos (by omega)]

theorem size_t_sub_one (a : Nat) (h0 : 1 ≤ a) (h1 : a < 18446744073709551616) :
    size_t_sub a 1 = a - 1 := by
  unfold size_t_sub SIZE_MOD
  omega

/-! ## Topology: resolution of coordinates -/

theorem quotient_torus_fst (l : landscape) (x y : Int) :
    (quotient_torus l x y).1 =
      if x > int_of_size_t l.width - 1 then 0
      else if x < 0 then size_t_sub l.width 1 else size_t_of_int x := rfl

theorem quotient_torus_snd (l : landscape) (x y : Int) :
    (quotient_torus l x y).2 =
      if y < 0 then size_t_sub l.height 1
      else if y > int_of_size_t l.height - 1 then 0 else size_t_of_int y := rfl

theorem clamped_fst (l : landscape) (x y : Int) :
    (clamped l x y).1 =
      if size_t_of_int x ≥ l.width then size_t_sub l.width 1
      else if x < 0 then 0 else size_t_of_int x := rfl

theorem clamped_snd (l : landscape) (x y : Int) :
    (clamped l x y).2 =
      if size_t_of_int y ≥ l.height then size_t_sub l.height 1
      else if y < 0 then 0 else size_t_of_int y := rfl

/-- One axis of the torus, for a dimension `d` within `int` range and a
coordinate between `-1` and `d`. -/
theorem torus_axis (d : Nat) (c : Int) (hd : 1 ≤ d) (hdi : (d : Int) ≤ INT_MAX)
    (hc : -1 ≤ c) (hc' : c ≤ d) :
    (if c > int_of_size_t d - 1 then 0
      else if c < 0 then size_t_sub d 1 else size_t_of_int c) = (c % (d : Int)).toNat := by
  unfold INT_MAX at hdi
  have hd31 : d < 2147483648 := by omega
  rw [int_of_size_t_small d hd31, size_t_sub_one d hd (by omega)]
  by_cases h1 : c > (d : Int) - 1
  · have hcd : c = (d : Int) := by omega
    rw [if_pos h1, hcd, Int.emod_self]; rfl
  · rw [if_neg h1]
    by_cases h2 : c < 0
    · have hc1 : c = -1 := by omega
      rw [if_pos h2, hc1]
      have e : (-1 : Int) % (d : Int) = (d : Int) - 1 := by
        have h3 : (-1 + (d : Int)) % (d : Int) = -1 + (d : Int) :=
          Int.emod_eq_of_lt (by omega) (by omega)
        rw [Int.add_emod_self] at h3
        omega
      rw [e]; omega
    · rw [if_neg h2, size_t_of_int_nonneg c (by omega) (by omega),
        Int.emod_eq_of_lt (by omega) (by omega)]

/-- Torus, swapped test order (the `y` axis of `quotient_torus`). -/
theorem torus_axis_swapped (d : Nat) (c : Int) (hd : 1 ≤ d) (hdi : (d : Int) ≤ INT_MAX) :
    (if c < 0 then size_t_sub d 1
      else if c > int_of_size_t d - 1 then 0 else size_t_of_int c) =
    (if c > int_of_size_t d - 1 then 0
      else if c < 0 then size_t_sub d 1 else size_t_of_int c) := by
  unfold INT_MAX at hdi
  rw [int_of_size_t_small d (by omega)]
  by_cases h1 : c < 0
  · rw [if_pos h1, if_neg (by omega), if_pos h1]
  · rw [if_neg h1]
    by_cases h2 : c > (d : Int) - 1
    · rw [if_pos h2, if_pos h2]
    · rw [if_neg h2, if_neg h2, if_neg h1]

/-- One axis of `clamped`, for every `int` coordinate: a negative coordinate is
first set to `0` and then overwritten with `d - 1` by the unsigned comparison. -/
theorem clamped_axis (d : Nat) (c : Int) (hd : 1 ≤ d) (hdi : (d : Int) ≤ INT_MAX)
    (hc : INT_MIN ≤ c) (hc' : c ≤ INT_MAX) :
    (if size_t_of_int c ≥ d then size_t_sub d 1
      else if c < 0 then 0 else size_t_of_int c) =
    if c < 0 then d - 1 else if c ≥ (d : Int) then d - 1 else c.toNat := by
  unfold INT_MAX at hdi hc'
  unfold INT_MIN at hc
  rw [size_t_sub_one d hd (by omega)]
  by_cases h1 : c < 0
  · rw [size_t_of_int_neg c (by omega) h1]
    split_ifs <;> omega
  · rw [size_t_of_int_nonneg c (by omega) (by omega)]
    split_ifs <;> omega

/-- Both topologies return an in-range cell unchanged. -/
theorem resolve_in_range (l : landscape) (x y : Nat)
    (hw : (l.width : Int) ≤ INT_MAX) (hh : (l.height : Int) ≤ INT_MAX)
    (hx : x < l.width) (hy : y < l.height) :
    l.resolve (x : Int) (y : Int) = (x, y) := by
  have hw0 := hw
  have hh0 := hh
  unfold INT_MAX at hw0 hh0
  unfold landscape.resolve
  cases l.quotient with
  | clamped =>
    apply Prod.ext
    · rw [clamped_fst, clamped_axis l.width x (by omega) hw (by unfold INT_MIN; omega)
        (by unfold INT_MAX; omega)]
      simp only []
      rw [if_neg (by omega), if_neg (by omega)]; omega
    · rw [clamped_snd, clamped_axis l.height y (by omega) hh (by unfold INT_MIN; omega)
        (by unfold INT_MAX; omega)]
      simp only []
      rw [if_neg (by omega), if_neg (by omega)]; omega
  | quotient_torus =>
    apply Prod.ext
    · rw [quotient_torus_fst, torus_axis l.width x (by omega) hw (by omega) (by omega),
        Int.emod_eq_of_lt (by omega) (by omega)]
      simp
    · rw [quotient_torus_snd, torus_axis_swapped l.height y (by omega) hh,
        torus_axis l.height y (by omega) hh (by omega) (by omega),
        Int.emod_eq_of_lt (by omega) (by omega)]
      simp

/-- Both topologies return a pair inside the grid, for every coordinate pair. -/
theorem resolve_lt (l : landscape) (x y : Int)
    (hw1 : 1 ≤ l.width) (hw : (l.width : Int) ≤ INT_MAX)
    (hh1 : 1 ≤ l.height) (hh : (l.height : Int) ≤ INT_MAX) :
    (l.resolve x y).1 < l.width ∧ (l.resolve x y).2 < l.height := by
  have hw0 := hw
  have hh0 := hh
  unfold INT_MAX at hw0 hh0
  have sw := size_t_sub_one l.width hw1 (by omega)
  have sh := size_t_sub_one l.height hh1 (by omega)
  have iw := int_of_size_t_small l.width (by omega)
  have ih := int_of_size_t_small l.height (by omega)
  unfold landscape.resolve
  cases l.quotient with
  | clamped =>
    constructor
    · rw [clamped_fst, sw]
      by_cases h1 : size_t_of_int x ≥ l.width
      · rw [if_pos h1]; omega
      · rw [if_neg h1]
        by_cases h2 : x < 0
        · rw [if_pos h2]; omega
        · rw [if_neg h2]; omega
    · rw [clamped_snd, sh]
      by_cases h1 : size_t_of_int y ≥ l.height
      · rw [if_pos h1]; omega
      · rw [if_neg h1]
        by_cases h2 : y < 0
        · rw [if_pos h2]; omega
        · rw [if_neg h2]; omega
  | quotient_torus =>
    constructor
    · rw [quotient_torus_fst, sw, iw]
      by_cases h1 : x > (l.width : Int) - 1
      · rw [if_pos h1]; omega
      · rw [if_neg h1]
        by_cases h2 : x < 0
        · rw [if_pos h2]; omega
        · rw [if_neg h2, size_t_of_int_nonneg x (by omega) (by omega)]; omega
    · rw [quotient_torus_snd, sh, ih]
      by_cases h2 : y < 0
      · rw [if_pos h2]; omega
      · rw [if_neg h2]
        by_cases h1 : y > (l.height : Int) - 1
        · rw [if_pos h1]; omega
        · rw [if_neg h1, size_t_of_int_nonneg y (by omega) (by omega)]; omega

/-- A resolved pair indexes inside a buffer of `width * height` cells. -/
theorem index_lt (w h X Y : Nat) (hX : X < w) (hY : Y < h) : Y * w + X < w * h := by
  have h1 : Y * w + X < (Y + 1) * w := by rw [Nat.add_mul]; omega
  have h2 : (Y + 1) * w ≤ h * w := Nat.mul_le_mul_right w hY
  rw [Nat.mul_comm w h]
  omega

/-! ## Claims on the topology -/

/-- C4: for dimensions `width, height ≥ 1` (within `int` range, as the claim's
coordinate `x = width` requires) and every coordinate pair with
`-1 ≤ x ≤ width` and `-1 ≤ y ≤ height`, `quotient_torus` returns
`(x mod width, y mod height)` with the non-negative modulo; in particular an
in-range coordinate is returned unchanged, `-1` maps to `dimension - 1` and
`dimension` maps to `0`, on each axis independently. -/
theorem quotient_torus_is_modulo (l : landscape) (x y : Int)
    (hw1 : 1 ≤ l.width) (hw : (l.width : Int) ≤ INT_MAX)
    (hh1 : 1 ≤ l.height) (hh : (l.height : Int) ≤ INT_MAX)
    (hx : -1 ≤ x) (hx' : x ≤ l.width) (hy : -1 ≤ y) (hy' : y ≤ l.height) :
    quotient_torus l x y = ((x % (l.width : Int)).toNat, (y % (l.height : Int)).toNat)
    ∧ (0 ≤ x → x < l.width → (quotient_torus l x y).1 = x.toNat)
    ∧ (x = -1 → (quotient_torus l x y).1 = l.width - 1)
    ∧ (x = l.width → (quotient_torus l x y).1 = 0)
    ∧ (0 ≤ y → y < l.height → (quotient_torus l x y).2 = y.toNat)
    ∧ (y = -1 → (quotient_torus l x y).2 = l.height - 1)
    ∧ (y = l.height → (quotient_torus l x y).2 = 0) := by
  have ex : (quotient_torus l x y).1 = (x % (l.width : Int)).toNat := by
    rw [quotient_torus_fst, torus_axis l.width x hw1 hw hx hx']
  have ey : (quotient_torus l x y).2 = (y % (l.height : Int)).toNat := by
    rw [quotient_torus_snd, torus_axis_swapped l.height y hh1 hh,
      torus_axis l.height y hh1 hh hy hy']
  have neg1 : ∀ d : Nat, 1 ≤ d → ((-1 : Int) % (d : Int)).toNat = d - 1 := by
    intro d hd
    have h3 : (-1 + (d : Int)) % (d : Int) = -1 + (d : Int) :=
      Int.emod_eq_of_lt (by omega) (by omega)
    rw [Int.add_emod_self] at h3
    rw [h3]; omega
  refine ⟨Prod.ext ex ey, ?_, ?_, ?_, ?_, ?_, ?_⟩
  · intro h0 h1
    rw [ex, Int.emod_eq_of_lt h0 h1]
  · intro h
    rw [ex, h, neg1 l.width hw1]
  · intro h
    rw [ex, h, Int.emod_self]; rfl
  · intro h0 h1
    rw [ey, Int.emod_eq_of_lt h0 h1]
  · intro h
    rw [ey, h, neg1 l.height hh1]
  · intro h
    rw [ey, h, Int.emod_self]; rfl

/-- Witness for C4: on the `8 × 8` torus the pair `(-1, 8)` resolves to `(7, 0)`. -/
theorem quotient_torus_is_modulo_witness : quotient_torus torus8 (-1) 8 = (7, 0) :=
  (quotient_torus_is_modulo torus8 (-1) 8 (by decide) (by decide) (by decide) (by decide)
    (by decide) (by decide) (by decide) (by decide)).1

/-- What `clamped` does on one axis for every `int` coordinate: a coordinate at
or above the dimension, and also every negative coordinate, yields
`dimension - 1`; a coordinate in range is returned unchanged. -/
theorem clamped_behaviour (l : landscape) (x y : Int)
    (hw1 : 1 ≤ l.width) (hw : (l.width : Int) ≤ INT_MAX)
    (hh1 : 1 ≤ l.height) (hh : (l.height : Int) ≤ INT_MAX)
    (hx : INT_MIN ≤ x) (hx' : x ≤ INT_MAX) (hy : INT_MIN ≤ y) (hy' : y ≤ INT_MAX) :
    clamped l x y =
      (if x < 0 then l.width - 1 else if x ≥ (l.width : Int) then l.width - 1 else x.toNat,
       if y < 0 then l.height - 1 else if y ≥ (l.height : Int) then l.height - 1 else y.toNat) := by
  apply Prod.ext
  · rw [clamped_fst, clamped_axis l.width x hw1 hw hx hx']
  · rw [clamped_snd, clamped_axis l.height y hh1 hh hy hy']

/-- C5 (the code at the failing input): on a `4 × 4` landscape `clamped` sends
the coordinate `-1` to `3 = dimension - 1` on each axis, not to `0`, the
nearest in-range coordinate. -/
theorem clamped_negative_yields_last : clamped clamped4 (-1) (-1) = (3, 3) ∧
    clamped clamped4 (-1) 2 = (3, 2) ∧ clamped clamped4 1 (-5) = (1, 3) := by
  decide

/-- C6: for every well-formed landscape (dimensions at least `1`), each topology
and every coordinate pair, however far out of range, the resolved pair
satisfies `X < width` and `Y < height`; hence the index `Y * width + X` that
`landscape_get`, `landscape_set` and `landscape_set_front` use is below
`width * height`, the length of both buffers, and the buffer access is in
bounds. -/
theorem resolve_index_in_bounds (l : landscape) (hl : l.wf) (x y : Int) :
    (l.resolve x y).1 < l.width ∧ (l.resolve x y).2 < l.height
    ∧ (l.resolve x y).2 * l.width + (l.resolve x y).1 < l.width * l.height
    ∧ (l.resolve x y).2 * l.width + (l.resolve x y).1 < l.front.length
    ∧ (l.resolve x y).2 * l.width + (l.resolve x y).1 < l.scratch.length := by
  obtain ⟨hw1, hw, hh1, hh, hflip, hflop⟩ := hl
  have hr := resolve_lt l x y hw1 hw hh1 hh
  have hi := index_lt l.width l.height _ _ hr.1 hr.2
  refine ⟨hr.1, hr.2, hi, ?_, ?_⟩
  · unfold landscape.front
    split_ifs
    · rw [hflip]; exact hi
    · rw [hflop]; exact hi
  · unfold landscape.scratch
    split_ifs
    · rw [hflop]; exact hi
    · rw [hflip]; exact hi

/-- Witness for C6: a coordinate pair far outside the `4 × 4` clamped grid. -/
theorem resolve_index_in_bounds_witness :
    (clamped4.resolve (-1000) 77).1 < clamped4.width :=
  (resolve_index_in_bounds clamped4 (by decide) (-1000) 77).1

/-! ## The evaluators write one scratch cell -/

theorem front_with_scratch (l : landscape) (b : List Nat) : (l.with_scratch b).front = l.front := by
  unfold landscape.with_scratch landscape.front
  cases h : l.show_is_flip <;> simp [h]

theorem scratch_with_scratch (l : landscape) (b : List Nat) : (l.with_scratch b).scratch = b := by
  unfold landscape.with_scratch landscape.scratch
  cases h : l.show_is_flip <;> simp [h]

theorem with_scratch_with_scratch (l : landscape) (b c : List Nat) :
    (l.with_scratch b).with_scratch c = l.with_scratch c := by
  unfold landscape.with_scratch
  cases h : l.show_is_flip <;> simp [h]

theorem with_scratch_self (l : landscape) : l.with_scratch l.scratch = l := by
  rcases l with ⟨w, h, q, r, a, sf, fl, fo⟩
  cases sf <;> rfl

theorem width_with_scratch (l : landscape) (b : List Nat) : (l.with_scratch b).width = l.width := by
  unfold landscape.with_scratch
  cases h : l.show_is_flip <;> simp [h]

theorem height_with_scratch (l : landscape) (b : List Nat) :
    (l.with_scratch b).height = l.height := by
  unfold landscape.with_scratch
  cases h : l.show_is_flip <;> simp [h]

theorem quotient_with_scratch (l : landscape) (b : List Nat) :
    (l.with_scratch b).quotient = l.quotient := by
  unfold landscape.with_scratch
  cases h : l.show_is_flip <;> simp [h]

theorem automata_with_scratch (l : landscape) (b : List Nat) :
    (l.with_scratch b).automata = l.automata := by
  unfold landscape.with_scratch
  cases h : l.show_is_flip <;> simp [h]

theorem rule_with_scratch (l : landscape) (b : List Nat) : (l.with_scratch b).rule = l.rule := by
  unfold landscape.with_scratch
  cases h : l.show_is_flip <;> simp [h]

theorem show_is_flip_with_scratch (l : landscape) (b : List Nat) :
    (l.with_scratch b).show_is_flip = l.show_is_flip := by
  unfold landscape.with_scratch
  cases h : l.show_is_flip <;> simp [h]

/-- Resolution looks at the geometry only. -/
theorem resolve_congr (l m : landscape) (hw : m.width = l.width) (hh : m.height = l.height)
    (hq : m.quotient = l.quotient) (x y : Int) : m.resolve x y = l.resolve x y := by
  unfold landscape.resolve clamped quotient_torus
  rw [hw, hh, hq]

/-- A read looks at the geometry and at `show` only. -/
theorem landscape_get_congr (l m : landscape) (hw : m.width = l.width)
    (hh : m.height = l.height) (hq : m.quotient = l.quotient) (hf : m.front = l.front)
    (x y : Int) : landscape_get m x y = landscape_get l x y := by
  unfold landscape_get
  rw [resolve_congr l m hw hh hq, hf, hw]

/-- The value an evaluator writes depends on the geometry, the evaluator and
`show` only. -/
theorem automata_val_congr (l m : landscape) (hw : m.width = l.width)
    (hh : m.height = l.height) (hq : m.quotient = l.quotient) (ha : m.automata = l.automata)
    (hf : m.front = l.front) (x y : Int) (rule : Nat) :
    m.automata_val x y rule = l.automata_val x y rule := by
  have hg : ∀ a b : Int, landscape_get m a b = landscape_get l a b :=
    landscape_get_congr l m hw hh hq hf
  unfold landscape.automata_val twod_life_like_val oned_val landscape_count_neighbours
  simp only [hg, ha, hw]

theorem landscape_set_eq (l : landscape) (x y : Int) (v : Nat) :
    landscape_set l x y v =
      l.with_scratch (l.scratch.set ((l.resolve x y).2 * l.width + (l.resolve x y).1) v) := by
  unfold landscape_set landscape.with_scratch landscape.scratch
  cases h : l.show_is_flip <;> simp [h]

theorem twod_life_like_eq (l : landscape) (x y : Int) (rule : Nat) :
    twod_life_like l x y rule = landscape_set l x y (twod_life_like_val l x y rule) := by
  unfold twod_life_like twod_life_like_val
  simp only []
  split_ifs <;> rfl

theorem oned_eq (l : landscape) (x y : Int) (rule : Nat) :
    oned l x y rule = landscape_set l x y (oned_val l x y rule) := by
  unfold oned oned_val
  simp only []
  split_ifs <;> rfl

theorem run_automata_eq (l : landscape) (x y : Int) (rule : Nat) :
    l.run_automata x y rule = landscape_set l x y (l.automata_val x y rule) := by
  unfold landscape.run_automata landscape.automata_val
  cases l.automata
  · exact twod_life_like_eq l x y rule
  · exact oned_eq l x y rule

/-- On an in-range cell the evaluator call writes the scratch cell of that
index and nothing else. -/
theorem run_automata_in_range (l : landscape) (x y : Nat) (rule : Nat)
    (hw : (l.width : Int) ≤ INT_MAX) (hh : (l.height : Int) ≤ INT_MAX)
    (hx : x < l.width) (hy : y < l.height) :
    l.run_automata (x : Int) (y : Int) rule =
      l.with_scratch (l.scratch.set (y * l.width + x) (l.automata_val x y rule)) := by
  rw [run_automata_eq, landscape_set_eq, resolve_in_range l x y hw hh hx hy]

/-! ## A pass over a list of cells -/

theorem foldl_set_length (V : Nat → Nat) (is : List Nat) (b : List Nat) :
    (is.foldl (fun b i => b.set i (V i)) b).length = b.length := by
  induction is generalizing b with
  | nil => rfl
  | cons i is ih => rw [List.foldl_cons, ih, List.length_set]

theorem foldl_set_getElem? (V : Nat → Nat) (is : List Nat) (b : List Nat) (j : Nat) :
    (is.foldl (fun b i => b.set i (V i)) b)[j]? =
      if j ∈ is ∧ j < b.length then some (V j) else b[j]? := by
  induction is generalizing b with
  | nil => simp
  | cons i is ih =>
    rw [List.foldl_cons, ih, List.length_set, List.getElem?_set]
    by_cases hj : j < b.length
    · by_cases hm : j ∈ is
      · simp [hm, hj]
      · by_cases hij : i = j
        · subst hij
          simp [hj]
        · have hji : ¬ j = i := fun h => hij h.symm
          simp [hm, hij, hji, List.mem_cons]
    · have hn : b[j]? = none := List.getElem?_eq_none (by omega)
      by_cases hij : i = j
      · subst hij
        simp [hj, hn]
      · simp [hj, hij]

theorem index_mod (w x y : Nat) (hx : x < w) : (y * w + x) % w = x := by
  rw [Nat.add_comm, Nat.add_mul_mod_self_right, Nat.mod_eq_of_lt hx]

theorem index_div (w x y : Nat) (hx : x < w) : (y * w + x) / w = y := by
  rw [Nat.add_comm, Nat.add_mul_div_right _ _ (by omega), Nat.div_eq_of_lt hx, Nat.zero_add]

theorem next_value_index (l : landscape) (x y : Nat) (hx : x < l.width) :
    next_value l (y * l.width + x) = l.automata_val (x : Int) (y : Int) l.rule := by
  unfold next_value
  rw [index_mod l.width x y hx, index_div l.width x y hx]

/-- A pass over in-range cells, in any order and with any repetitions, is the
sequence of the corresponding writes into the scratch buffer. -/
theorem run_cells_with_scratch (l : landscape) (cs : List (Nat × Nat))
    (hw : (l.width : Int) ≤ INT_MAX) (hh : (l.height : Int) ≤ INT_MAX)
    (hcs : ∀ c ∈ cs, c.1 < l.width ∧ c.2 < l.height) (b : List Nat) :
    run_cells (l.with_scratch b) cs =
      l.with_scratch ((cs.map (cell_index l)).foldl (fun b i => b.set i (next_value l i)) b) := by
  induction cs generalizing b with
  | nil => rfl
  | cons c cs ih =>
    have hc := hcs c (List.mem_cons_self _ _)
    have step : (l.with_scratch b).run_automata (c.1 : Int) (c.2 : Int) (l.with_scratch b).rule =
        l.with_scratch (b.set (cell_index l c) (next_value l (cell_index l c))) := by
      rw [run_automata_in_range (l.with_scratch b) c.1 c.2 _
        (by rw [width_with_scratch]; exact hw) (by rw [height_with_scratch]; exact hh)
        (by rw [width_with_scratch]; exact hc.1) (by rw [height_with_scratch]; exact hc.2)]
      rw [scratch_with_scratch, with_scratch_with_scratch, width_with_scratch, rule_with_scratch,
        automata_val_congr l (l.with_scratch b) (width_with_scratch l b) (height_with_scratch l b)
          (quotient_with_scratch l b) (automata_with_scratch l b) (front_with_scratch l b)]
      unfold cell_index
      rw [next_value_index l c.1 c.2 hc.1]
    unfold run_cells at ih ⊢
    rw [List.foldl_cons, step, ih (fun c hc => hcs c (List.mem_cons_of_mem _ hc)),
      List.map_cons, List.foldl_cons]

theorem next_cells_length (l : landscape) : (next_cells l).length = l.width * l.height := by
  unfold next_cells
  rw [List.length_map, List.length_range]

/-- A pass that visits every in-range cell leaves in the scratch buffer exactly
the values the evaluator computes from `show`. -/
theorem run_cells_complete (l : landscape) (cs : List (Nat × Nat)) (hl : l.wf)
    (hcs : ∀ x y : Nat, (x, y) ∈ cs ↔ x < l.width ∧ y < l.height) :
    run_cells l cs = l.with_scratch (next_cells l) := by
  obtain ⟨hw1, hw, hh1, hh, hflip, hflop⟩ := hl
  have hlen : l.scratch.length = l.width * l.height := by
    unfold landscape.scratch
    split_ifs
    · exact hflop
    · exact hflip
  have hin : ∀ c ∈ cs, c.1 < l.width ∧ c.2 < l.height := fun c hc => (hcs c.1 c.2).mp hc
  have h1 := run_cells_with_scratch l cs hw hh hin l.scratch
  rw [with_scratch_self] at h1
  rw [h1]
  congr 1
  apply List.ext_getElem?
  intro j
  rw [foldl_set_getElem?, hlen]
  unfold next_cells
  rw [List.getElem?_map]
  by_cases hj : j < l.width * l.height
  · have hjw : j % l.width < l.width := Nat.mod_lt _ (by omega)
    have hjh : j / l.width < l.height := by
      rw [Nat.div_lt_iff_lt_mul (by omega)]
      rw [Nat.mul_comm]; exact hj
    have hmem : j ∈ cs.map (cell_index l) := by
      rw [List.mem_map]
      refine ⟨(j % l.width, j / l.width), (hcs _ _).mpr ⟨hjw, hjh⟩, ?_⟩
      unfold cell_index
      simp only []
      rw [Nat.mul_comm]
      exact Nat.div_add_mod j l.width
    rw [if_pos ⟨hmem, hj⟩, List.getElem?_range hj]
    rfl
  · rw [if_neg (fun h => hj h.2)]
    rw [List.getElem?_eq_none (by omega), List.getElem?_eq_none (by rw [List.length_range]; omega)]
    rfl

/-! ## The step pass in closed form -/

theorem foldl_nested (g : landscape → Nat × Nat → landscape) (xs ys : List Nat) (s : landscape) :
    xs.foldl (fun s x => ys.foldl (fun t y => g t (x, y)) s) s =
      (xs.flatMap fun x => ys.map fun y => (x, y)).foldl g s := by
  induction xs generalizing s with
  | nil => rfl
  | cons x xs ih =>
    rw [List.foldl_cons, List.flatMap_cons, List.foldl_append, List.foldl_map, ih]

theorem mem_step_cells (l : landscape) (x y : Nat) :
    (x, y) ∈ step_cells l ↔ x < l.width ∧ y < l.height := by
  unfold step_cells
  simp only [List.mem_flatMap, List.mem_map, List.mem_range, Prod.mk.injEq]
  constructor
  · rintro ⟨a, ha, b, hb, rfl, rfl⟩
    exact ⟨ha, hb⟩
  · rintro ⟨hx, hy⟩
    exact ⟨x, hx, y, hy, rfl, rfl⟩

theorem mem_row_cells (l : landscape) (x y : Nat) :
    (x, y) ∈ row_cells l ↔ x < l.width ∧ y < l.height := by
  unfold row_cells
  simp only [List.mem_flatMap, List.mem_map, List.mem_range, Prod.mk.injEq]
  constructor
  · rintro ⟨b, hb, a, ha, rfl, rfl⟩
    exact ⟨ha, hb⟩
  · rintro ⟨hx, hy⟩
    exact ⟨y, hy, x, hx, rfl, rfl⟩

/-- The two loops of `landscape_step` are the pass over `step_cells`. -/
theorem landscape_step_run_cells (l : landscape) :
    landscape_step l =
      { run_cells l (step_cells l) with
        show_is_flip := !(run_cells l (step_cells l)).show_is_flip } := by
  unfold landscape_step run_cells step_cells
  simp only []
  rw [← foldl_nested (fun t c => t.run_automata (c.1 : Int) (c.2 : Int) t.rule)]

/-- One step: the scratch buffer receives the values the evaluator computes from
`show`, and the two buffers swap roles. -/
theorem landscape_step_eq (l : landscape) (hl : l.wf) :
    landscape_step l =
      { l.with_scratch (next_cells l) with show_is_flip := !l.show_is_flip } := by
  rw [landscape_step_run_cells, run_cells_complete l (step_cells l) hl (mem_step_cells l),
    show_is_flip_with_scratch]

theorem front_swap (m : landscape) :
    ({ m with show_is_flip := !m.show_is_flip } : landscape).front = m.scratch := by
  unfold landscape.front landscape.scratch
  cases h : m.show_is_flip <;> simp

theorem scratch_swap (m : landscape) :
    ({ m with show_is_flip := !m.show_is_flip } : landscape).scratch = m.front := by
  unfold landscape.front landscape.scratch
  cases h : m.show_is_flip <;> simp

theorem landscape_step_front (l : landscape) (hl : l.wf) :
    (landscape_step l).front = next_cells l := by
  rw [landscape_step_eq l hl, ← show_is_flip_with_scratch l (next_cells l), front_swap,
    scratch_with_scratch]

theorem landscape_step_scratch (l : landscape) (hl : l.wf) :
    (landscape_step l).scratch = l.front := by
  rw [landscape_step_eq l hl, ← show_is_flip_with_scratch l (next_cells l), scratch_swap,
    front_with_scratch]

theorem landscape_step_geometry (l : landscape) (hl : l.wf) :
    (landscape_step l).width = l.width ∧ (landscape_step l).height = l.height ∧
    (landscape_step l).quotient = l.quotient ∧ (landscape_step l).automata = l.automata ∧
    (landscape_step l).rule = l.rule ∧ (landscape_step l).show_is_flip = !l.show_is_flip := by
  rw [landscape_step_eq l hl]
  exact ⟨width_with_scratch l _, height_with_scratch l _, quotient_with_scratch l _,
    automata_with_scratch l _, rule_with_scratch l _, rfl⟩

theorem wf_lengths (l : landscape) (hl : l.wf) :
    l.front.length = l.width * l.height ∧ l.scratch.length = l.width * l.height := by
  obtain ⟨_, _, _, _, hflip, hflop⟩ := hl
  unfold landscape.front landscape.scratch
  cases l.show_is_flip
  · exact ⟨hflop, hflip⟩
  · exact ⟨hflip, hflop⟩

theorem wf_of_lengths (l : landscape) (hw1 : 1 ≤ l.width) (hw : (l.width : Int) ≤ INT_MAX)
    (hh1 : 1 ≤ l.height) (hh : (l.height : Int) ≤ INT_MAX)
    (hf : l.front.length = l.width * l.height) (hs : l.scratch.length = l.width * l.height) :
    l.wf := by
  unfold landscape.front at hf
  unfold landscape.scratch at hs
  refine ⟨hw1, hw, hh1, hh, ?_, ?_⟩
  · cases h : l.show_is_flip
    · rw [h] at hs; exact hs
    · rw [h] at hf; exact hf
  · cases h : l.show_is_flip
    · rw [h] at hf; exact hf
    · rw [h] at hs; exact hs

/-- A step keeps the landscape well formed. -/
theorem landscape_step_wf (l : landscape) (hl : l.wf) : (landscape_step l).wf := by
  obtain ⟨gw, gh, _, _, _, _⟩ := landscape_step_geometry l hl
  have hlen := wf_lengths l hl
  have hf := landscape_step_front l hl
  have hs := landscape_step_scratch l hl
  obtain ⟨hw1, hw, hh1, hh, _, _⟩ := hl
  apply wf_of_lengths
  · rw [gw]; exact hw1
  · rw [gw]; exact hw
  · rw [gh]; exact hh1
  · rw [gh]; exact hh
  · rw [hf, next_cells_length, gw, gh]
  · rw [hs, gw, gh]; exact hlen.1

/-- After a step the cell `(x, y)` of `show` holds the value the evaluator
computed for `(x, y)` from the old `show`. -/
theorem landscape_step_cell (l : landscape) (hl : l.wf) (x y : Nat)
    (hx : x < l.width) (hy : y < l.height) :
    (landscape_step l).front[y * l.width + x]? = some (l.automata_val (x : Int) (y : Int) l.rule) := by
  rw [landscape_step_front l hl]
  unfold next_cells
  rw [List.getElem?_map, List.getElem?_range (index_lt l.width l.height x y hx hy)]
  simp only [Option.map_some']
  rw [next_value_index l x y hx]

/-! ## Claims on the step pass -/

/-- C1: for every well-formed landscape (dimensions at least `1`), either
topology and either evaluator, `landscape_step` leaves the contents of the
buffer that was `show` unchanged, makes the other buffer `show`, and every
in-range cell `(x, y)` of the new `show` holds the value the active evaluator
passes to `landscape_set` for `(x, y)`; that value is computed from the
pre-step `show` alone: it is the same on every landscape `m` of the same
geometry and evaluator whose `show` has the same contents, whatever its
scratch buffer holds. -/
theorem landscape_step_synchronous (l : landscape) (hl : l.wf) :
    (l.show_is_flip = true →
      (landscape_step l).flip = l.flip ∧ (landscape_step l).show_is_flip = false)
    ∧ (l.show_is_flip = false →
      (landscape_step l).flop = l.flop ∧ (landscape_step l).show_is_flip = true)
    ∧ (landscape_step l).scratch = l.front
    ∧ (∀ (x y : Int) (rule : Nat),
        l.run_automata x y rule = landscape_set l x y (l.automata_val x y rule))
    ∧ ∀ x y : Nat, x < l.width → y < l.height →
        ∀ m : landscape, m.width = l.width → m.height = l.height → m.quotient = l.quotient →
          m.automata = l.automata → m.front = l.front →
          (landscape_step l).front[y * l.width + x]? =
            some (m.automata_val (x : Int) (y : Int) l.rule) := by
  have hs := landscape_step_scratch l hl
  have hg := (landscape_step_geometry l hl).2.2.2.2.2
  refine ⟨?_, ?_, hs, run_automata_eq l, ?_⟩
  · intro h
    rw [h] at hg
    refine ⟨?_, hg⟩
    unfold landscape.scratch landscape.front at hs
    rw [hg, h] at hs
    simpa using hs
  · intro h
    rw [h] at hg
    refine ⟨?_, hg⟩
    unfold landscape.scratch landscape.front at hs
    rw [hg, h] at hs
    simpa using hs
  · intro x y hx hy m mw mh mq ma mf
    rw [landscape_step_cell l hl x y hx hy, automata_val_congr l m mw mh mq ma mf]

/-- Witness for C1: the all-dead `8 × 8` torus. -/
theorem landscape_step_synchronous_witness : (landscape_step torus8).scratch = torus8.front :=
  (landscape_step_synchronous torus8 (by decide)).2.2.1

/-- C10: for every well-formed landscape `l`, either topology, either evaluator
and any rule, running the evaluator over any enumeration `cs` of the in-range
cells (each cell visited once; visiting a cell again would change nothing)
leaves in the scratch buffer exactly the buffer `landscape_step` produces with
its own loop order (`step_cells`: `x` outer, `y` inner) and makes `show`, and
leaves `show` as it was; the pass may even start from another landscape `m`
that agrees with `l` on geometry, evaluator, rule and the contents of `show`
but has any other scratch contents, so the result does not depend on the prior
contents of scratch. -/
theorem step_pass_order_independent (l m : landscape) (cs : List (Nat × Nat))
    (hl : l.wf) (hm : m.wf)
    (mw : m.width = l.width) (mh : m.height = l.height) (mq : m.quotient = l.quotient)
    (ma : m.automata = l.automata) (mr : m.rule = l.rule) (mf : m.front = l.front)
    (hcs : ∀ x y : Nat, (x, y) ∈ cs ↔ x < l.width ∧ y < l.height) :
    (run_cells m cs).scratch = (landscape_step l).front
    ∧ (run_cells m cs).front = m.front
    ∧ landscape_step l =
        { run_cells l (step_cells l) with
          show_is_flip := !(run_cells l (step_cells l)).show_is_flip } := by
  have hcs' : ∀ x y : Nat, (x, y) ∈ cs ↔ x < m.width ∧ y < m.height := by
    intro x y
    rw [mw, mh]
    exact hcs x y
  have hnext : next_cells m = next_cells l := by
    unfold next_cells
    rw [mw, mh]
    apply List.map_congr_left
    intro i _
    unfold next_value
    rw [mw, mr, automata_val_congr l m mw mh mq ma mf]
  refine ⟨?_, ?_, ?_⟩
  · rw [run_cells_complete m cs hm hcs', scratch_with_scratch, landscape_step_front l hl, hnext]
  · rw [run_cells_complete m cs hm hcs', front_with_scratch]
  · exact landscape_step_run_cells l

/-- Witness for C10: the `4 × 4` clamped landscape, visited row by row, from a
scratch buffer of ones. -/
theorem step_pass_order_independent_witness :
    (run_cells { clamped4 with flop := List.replicate 16 1 } (row_cells clamped4)).scratch =
      (landscape_step clamped4).front :=
  (step_pass_order_independent clamped4 { clamped4 with flop := List.replicate 16 1 }
    (row_cells clamped4) (by decide) (by decide) rfl rfl rfl rfl rfl rfl
    (mem_row_cells clamped4)).1

/-- The frozen cells of `oned` are copied from `show`. -/
theorem oned_val_frozen (l : landscape) (hl : l.wf) (x y : Nat) (rule : Nat)
    (hx : x < l.width) (hy : y < l.height) (hb : y = 0 ∨ x = 0 ∨ x = l.width - 1) :
    some (oned_val l (x : Int) (y : Int) rule) = l.front[y * l.width + x]? := by
  have hlen := (wf_lengths l hl).1
  obtain ⟨hw1, hw, hh1, hh, _, _⟩ := hl
  have hw0 := hw
  unfold INT_MAX at hw0
  unfold oned_val
  have hc : ((y : Int) = 0 ∨ (x : Int) = 0 ∨ size_t_of_int (x : Int) = size_t_sub l.width 1) := by
    rw [size_t_of_int_natCast x (by omega), size_t_sub_one l.width hw1 (by omega)]
    omega
  rw [if_pos hc]
  unfold landscape_get
  rw [resolve_in_range l x y hw hh hx hy]
  simp only []
  have hi : y * l.width + x < l.front.length := by
    rw [hlen]; exact index_lt l.width l.height x y hx hy
  rw [List.getD_eq_getElem _ _ hi, List.getElem?_eq_getElem hi]

/-- C9: for every well-formed landscape (dimensions at least `1`) with automata
`oned` (under `clamped`, and equally under the torus), every rule value, every
initial contents of both buffers and every `k`: after `k` calls of
`landscape_step` every cell of `show` in row `0`, in column `0` and in column
`width - 1` holds the value it held in `show` before the first call. -/
theorem oned_boundary_frozen (l : landscape) (hl : l.wf) (ha : l.automata = evaluator.oned)
    (k : Nat) (x y : Nat) (hx : x < l.width) (hy : y < l.height)
    (hb : y = 0 ∨ x = 0 ∨ x = l.width - 1) :
    (landscape_step^[k] l).front[y * l.width + x]? = l.front[y * l.width + x]? := by
  have inv : ∀ k : Nat, (landscape_step^[k] l).wf ∧ (landscape_step^[k] l).width = l.width ∧
      (landscape_step^[k] l).height = l.height ∧
      (landscape_step^[k] l).automata = evaluator.oned ∧
      (landscape_step^[k] l).front[y * l.width + x]? = l.front[y * l.width + x]? := by
    intro k
    induction k with
    | zero => exact ⟨hl, rfl, rfl, ha, rfl⟩
    | succ n ih =>
      obtain ⟨wfn, wn, hn, an, fn⟩ := ih
      rw [Function.iterate_succ_apply']
      obtain ⟨gw, gh, _, ga, _, _⟩ := landscape_step_geometry _ wfn
      refine ⟨landscape_step_wf _ wfn, gw.trans wn, gh.trans hn, ga.trans an, ?_⟩
      have hc := landscape_step_cell _ wfn x y (by rw [wn]; exact hx) (by rw [hn]; exact hy)
      rw [wn] at hc
      rw [hc]
      unfold landscape.automata_val
      rw [an]
      simp only []
      have hf := oned_val_frozen _ wfn x y (landscape_step^[n] l).rule
        (by rw [wn]; exact hx) (by rw [hn]; exact hy) (by rw [wn]; exact hb)
      rw [wn] at hf
      rw [hf, fn]
  exact (inv k).2.2.2.2

/-- Witness for C9: the bottom right corner of the `4 × 4` clamped landscape
after five steps. -/
theorem oned_boundary_frozen_witness :
    (landscape_step^[5] clamped4).front[3 * clamped4.width + 3]? =
      clamped4.front[3 * clamped4.width + 3]? :=
  oned_boundary_frozen clamped4 (by decide) rfl 5 3 3 (by decide) (by decide) (by decide)

/-! ## Claims on the rule evaluators -/

theorem getD_binary (b : List Nat) (hb : binary_cells b) (i : Nat) : b.getD i 0 ≤ 1 := by
  by_cases hi : i < b.length
  · rw [List.getD_eq_getElem _ _ hi]
    rcases hb _ (List.getElem_mem hi) with h | h <;> omega
  · rw [List.getD_eq_default _ _ (by omega)]
    omega

theorem landscape_get_le_one (l : landscape) (hb : binary_cells l.front) (x y : Int) :
    landscape_get l x y ≤ 1 := by
  unfold landscape_get
  exact getD_binary _ hb _

theorem landscape_get_in_range (l : landscape) (hl : l.wf) (x y : Nat)
    (hx : x < l.width) (hy : y < l.height) :
    l.front[y * l.width + x]? = some (landscape_get l (x : Int) (y : Int)) := by
  have hlen := (wf_lengths l hl).1
  obtain ⟨hw1, hw, hh1, hh, _, _⟩ := hl
  unfold landscape_get
  rw [resolve_in_range l x y hw hh hx hy]
  simp only []
  have hi : y * l.width + x < l.front.length := by
    rw [hlen]; exact index_lt l.width l.height x y hx hy
  rw [List.getD_eq_getElem _ _ hi, List.getElem?_eq_getElem hi]

theorem two_pow_and_ne_zero (r n : Nat) : 2 ^ n &&& r ≠ 0 ↔ r.testBit n = true := by
  constructor
  · intro h
    by_contra hf
    apply h
    apply Nat.eq_of_testBit_eq
    intro i
    rw [Nat.testBit_and, Nat.testBit_two_pow, Nat.zero_testBit]
    by_cases hni : n = i
    · subst hni
      simp [hf]
    · simp [hni]
  · intro h h0
    have h1 : (2 ^ n &&& r).testBit n = true := by
      rw [Nat.testBit_and, Nat.testBit_two_pow_self, h]
      rfl
    rw [h0, Nat.zero_testBit] at h1
    exact Bool.noConfusion h1

theorem uint32_bit (n : Nat) (hn : n < 32) : (1 <<< n) % INT_MOD = 2 ^ n := by
  unfold INT_MOD
  rw [Nat.one_shiftLeft]
  apply Nat.mod_eq_of_lt
  calc 2 ^ n < 2 ^ 32 := Nat.pow_lt_pow_right (by omega) hn
    _ = 4294967296 := by norm_num

theorem bit_value (r n : Nat) : (if 2 ^ n &&& r ≠ 0 then 1 else 0) = bit_of r n := by
  unfold bit_of
  by_cases h : r.testBit n = true
  · rw [if_pos ((two_pow_and_ne_zero r n).mpr h), h]
    rfl
  · rw [if_neg (fun hh => h ((two_pow_and_ne_zero r n).mp hh))]
    simp only [Bool.not_eq_true] at h
    rw [h]
    rfl

theorem bit_of_mod (r n k : Nat) (h : n < k) : bit_of (r % 2 ^ k) n = bit_of r n := by
  unfold bit_of
  rw [Nat.testBit_mod_two_pow]
  simp [h]

theorem count_neighbours_le (l : landscape) (hb : binary_cells l.front) (x y : Int) :
    landscape_count_neighbours l x y ≤ 8 := by
  unfold landscape_count_neighbours
  have h := landscape_get_le_one l hb
  have h1 := h x (y + 1)
  have h2 := h (x + 1) (y + 1)
  have h3 := h (x + 1) y
  have h4 := h (x + 1) (y - 1)
  have h5 := h x (y - 1)
  have h6 := h (x - 1) (y + 1)
  have h7 := h (x - 1) y
  have h8 := h (x - 1) (y - 1)
  omega

/-- The value `twod_life_like` writes, when the neighbour count is at most 8. -/
theorem twod_life_like_val_bits (l : landscape) (x y : Int) (rule : Nat)
    (hn : landscape_count_neighbours l x y ≤ 8) :
    twod_life_like_val l x y rule =
      if landscape_get l x y ≠ 0 then bit_of rule (landscape_count_neighbours l x y)
      else bit_of rule (9 + landscape_count_neighbours l x y) := by
  unfold twod_life_like_val survive_bit birth_bit
  simp only []
  rw [uint32_bit _ (by omega), uint32_bit _ (by omega), bit_value, bit_value]

/-- C2: for every well-formed landscape whose `show` holds only 0/1 values, every
in-range `(x, y)` and every rule, the neighbour count `n` is the sum of
`landscape_get` over the eight offsets and is at most 8; the cell `(x, y)` of
`show` is alive (`1`) or dead (`0`); `twod_life_like` writes into the scratch
cell `(x, y)` bit `n` of the rule when the cell is alive and bit `9 + n` when it
is dead, and changes no other scratch cell; the bits of the rule above bit 17
do not affect the result. -/
theorem twod_life_like_rule_bits (l : landscape) (hl : l.wf) (hb : binary_cells l.front)
    (x y : Nat) (hx : x < l.width) (hy : y < l.height) (rule : Nat) :
    landscape_count_neighbours l x y =
      (neighbour_offsets.map fun d => landscape_get l ((x : Int) + d.1) ((y : Int) + d.2)).sum
    ∧ landscape_count_neighbours l x y ≤ 8
    ∧ (l.front[y * l.width + x]? = some 1 ∨ l.front[y * l.width + x]? = some 0)
    ∧ y * l.width + x < l.scratch.length
    ∧ (l.front[y * l.width + x]? = some 1 →
        (twod_life_like l x y rule).scratch =
          l.scratch.set (y * l.width + x) (bit_of rule (landscape_count_neighbours l x y)))
    ∧ (l.front[y * l.width + x]? = some 0 →
        (twod_life_like l x y rule).scratch =
          l.scratch.set (y * l.width + x) (bit_of rule (9 + landscape_count_neighbours l x y)))
    ∧ (twod_life_like l x y rule).front = l.front
    ∧ twod_life_like l x y rule = twod_life_like l x y (rule % 2 ^ 18) := by
  have hn := count_neighbours_le l hb x y
  have hg := landscape_get_in_range l hl x y hx hy
  have hg1 := landscape_get_le_one l hb x y
  have hlen := (wf_lengths l hl).2
  have hres := resolve_in_range l x y hl.2.1 hl.2.2.2.1 hx hy
  have hval := twod_life_like_val_bits l x y rule hn
  have hscr : ∀ r : Nat, (twod_life_like l x y r).scratch =
      l.scratch.set (y * l.width + x) (twod_life_like_val l x y r) := by
    intro r
    rw [twod_life_like_eq, landscape_set_eq, hres, scratch_with_scratch]
  refine ⟨?_, hn, ?_, ?_, ?_, ?_, ?_, ?_⟩
  · unfold landscape_count_neighbours neighbour_offsets
    simp only [List.map_cons, List.map_nil, List.sum_cons, List.sum_nil, Int.add_zero,
      Int.add_neg_one, Nat.add_zero]
    omega
  · rw [hg]
    have : landscape_get l x y = 1 ∨ landscape_get l x y = 0 := by omega
    rcases this with h | h
    · left; rw [h]
    · right; rw [h]
  · rw [hlen]; exact index_lt l.width l.height x y hx hy
  · intro h1
    rw [hg] at h1
    have h2 : landscape_get l x y = 1 := Option.some.inj h1
    rw [hscr, hval, if_pos (by omega)]
  · intro h1
    rw [hg] at h1
    have h2 : landscape_get l x y = 0 := Option.some.inj h1
    rw [hscr, hval, if_neg (by omega)]
  · rw [twod_life_like_eq, landscape_set_eq, front_with_scratch]
  · rw [twod_life_like_eq, twod_life_like_eq, hval, twod_life_like_val_bits l x y _ hn,
      bit_of_mod rule _ 18 (by omega), bit_of_mod rule _ 18 (by omega)]

/-- Witness for C2: the cell `(4, 3)` of the `8 × 8` torus after the glider has
been stamped at `(3, 3)`. -/
theorem twod_life_like_rule_bits_witness :
    landscape_count_neighbours (brush_conway_glider torus8 3 3) ((4 : Nat) : Int) ((3 : Nat) : Int)
      ≤ 8 :=
  (twod_life_like_rule_bits (brush_conway_glider torus8 3 3) (by decide) (by decide) 4 3
    (by decide) (by decide) conway).2.1

theorem and_byte (r : Nat) : r &&& 0xff = r % 256 := by
  have h := Nat.and_pow_two_sub_one_eq_mod r 8
  norm_num at h
  exact h

theorem oned_val_mod (l : landscape) (x y : Int) (rule : Nat) :
    oned_val l x y (rule % 256) = oned_val l x y rule := by
  unfold oned_val
  simp only [and_byte, Nat.mod_mod]

theorem parent_pattern_bits (a b c : Nat) (ha : a ≤ 1) (hb : b ≤ 1) (hc : c ≤ 1) :
    ((a <<< 2) ||| (b <<< 1) ||| c) % 256 = 4 * a + 2 * b + c := by
  interval_cases a <;> interval_cases b <;> interval_cases c <;> rfl

/-- C3: for every well-formed landscape whose `show` holds only 0/1 values,
every rule and every cell `(x, y)` with `y ≥ 1` and `1 ≤ x ≤ width - 2`, with
`a`, `b`, `c` the cells `(x-1, y-1)`, `(x, y-1)`, `(x+1, y-1)` of `show`, `oned`
writes into the scratch cell `(x, y)` bit `p = 4a + 2b + c` of `rule & 0xff`,
and changes no other scratch cell; the bits of the rule above bit 7 do not
affect the result (for any cell at all). -/
theorem oned_rule_bits (l : landscape) (hl : l.wf) (hb : binary_cells l.front) (rule : Nat)
    (x y : Nat) (hy1 : 1 ≤ y) (hy : y < l.height) (hx1 : 1 ≤ x) (hx : x + 2 ≤ l.width) :
    (∃ a b c : Nat,
      l.front[(y - 1) * l.width + (x - 1)]? = some a
      ∧ l.front[(y - 1) * l.width + x]? = some b
      ∧ l.front[(y - 1) * l.width + (x + 1)]? = some c
      ∧ 4 * a + 2 * b + c ≤ 7
      ∧ (oned l x y rule).scratch =
          l.scratch.set (y * l.width + x) (bit_of (rule &&& 0xff) (4 * a + 2 * b + c)))
    ∧ y * l.width + x < l.scratch.length
    ∧ (oned l x y rule).front = l.front
    ∧ ∀ (u v : Int), oned l u v rule = oned l u v (rule % 256) := by
  have hlen := (wf_lengths l hl).2
  have hw1 := hl.1
  have hw := hl.2.1
  have hh := hl.2.2.2.1
  have hw0 := hw
  unfold INT_MAX at hw0
  have hres := resolve_in_range l x y hw hh (by omega) hy
  have e1 : ((x : Int) - 1) = ((x - 1 : Nat) : Int) := by omega
  have e2 : ((y : Int) - 1) = ((y - 1 : Nat) : Int) := by omega
  have e3 : ((x : Int) + 1) = ((x + 1 : Nat) : Int) := by omega
  have ga := landscape_get_in_range l hl (x - 1) (y - 1) (by omega) (by omega)
  have gb := landscape_get_in_range l hl x (y - 1) (by omega) (by omega)
  have gc := landscape_get_in_range l hl (x + 1) (y - 1) (by omega) (by omega)
  have la := landscape_get_le_one l hb ((x - 1 : Nat) : Int) ((y - 1 : Nat) : Int)
  have lb := landscape_get_le_one l hb (x : Int) ((y - 1 : Nat) : Int)
  have lc := landscape_get_le_one l hb ((x + 1 : Nat) : Int) ((y - 1 : Nat) : Int)
  refine ⟨⟨_, _, _, ga, gb, gc, by omega, ?_⟩, ?_, ?_, ?_⟩
  · rw [oned_eq, landscape_set_eq, hres, scratch_with_scratch]
    congr 1
    unfold oned_val
    have hc : ¬((y : Int) = 0 ∨ (x : Int) = 0 ∨
        size_t_of_int (x : Int) = size_t_sub l.width 1) := by
      rw [size_t_of_int_natCast x (by omega), size_t_sub_one l.width hw1 (by omega)]
      omega
    rw [if_neg hc]
    simp only []
    rw [e1, e2, e3, parent_pattern_bits _ _ _ la lb lc, Nat.one_shiftLeft, Nat.and_comm,
      bit_value]
  · rw [hlen]; exact index_lt l.width l.height x y (by omega) hy
  · rw [oned_eq, landscape_set_eq, front_with_scratch]
  · intro u v
    rw [oned_eq, oned_eq, oned_val_mod]

/-- Witness for C3: the cell `(1, 1)` of the `4 × 4` clamped landscape under
rule 110, after the cell `(1, 0)` has been painted. -/
theorem oned_rule_bits_witness :
    (oned (brush_default clamped4 1 0) ((1 : Nat) : Int) ((1 : Nat) : Int) 110).front =
      (brush_default clamped4 1 0).front :=
  (oned_rule_bits (brush_default clamped4 1 0) (by decide) (by decide) 110 1 1 (by decide)
    (by decide) (by decide) (by decide)).2.2.1

/-! ## Claims on the brushes -/

theorem front_with_front (l : landscape) (b : List Nat) : (l.with_front b).front = b := by
  unfold landscape.with_front landscape.front
  cases h : l.show_is_flip <;> simp [h]

theorem scratch_with_front (l : landscape) (b : List Nat) :
    (l.with_front b).scratch = l.scratch := by
  unfold landscape.with_front landscape.scratch
  cases h : l.show_is_flip <;> simp [h]

theorem geometry_with_front (l : landscape) (b : List Nat) :
    (l.with_front b).width = l.width ∧ (l.with_front b).height = l.height ∧
    (l.with_front b).quotient = l.quotient ∧
    (l.with_front b).show_is_flip = l.show_is_flip := by
  unfold landscape.with_front
  cases h : l.show_is_flip <;> simp [h]

theorem landscape_set_front_eq (l : landscape) (x y : Int) (v : Nat) :
    landscape_set_front l x y v =
      l.with_front (l.front.set ((l.resolve x y).2 * l.width + (l.resolve x y).1) v) := by
  unfold landscape_set_front landscape.with_front landscape.front
  cases h : l.show_is_flip <;> simp [h]

/-- Resolving a resolved pair again, after its conversion to `int`, returns it. -/
theorem resolve_idem (l : landscape) (hl : l.wf) (x y : Int) :
    l.resolve (int_of_size_t (l.resolve x y).1) (int_of_size_t (l.resolve x y).2) =
      l.resolve x y := by
  obtain ⟨hw1, hw, hh1, hh, _, _⟩ := hl
  have hr := resolve_lt l x y hw1 hw hh1 hh
  have hw0 := hw
  have hh0 := hh
  unfold INT_MAX at hw0 hh0
  rw [int_of_size_t_small _ (by omega), int_of_size_t_small _ (by omega),
    resolve_in_range l _ _ hw hh hr.1 hr.2]

/-- C7: for every well-formed landscape (dimensions at least `1`), either
topology and every coordinate pair `(x, y)`, in range or not, `landscape_get`
at `(x, y)` right after `brush_default` at `(x, y)` returns `1`;
`brush_default` writes `1` into the cell of `show` that `(x, y)` resolves to,
changes no other cell of `show`, nothing in the scratch buffer and not the
`show` pointer. -/
theorem brush_default_then_get (l : landscape) (hl : l.wf) (x y : Int) :
    landscape_get (brush_default l x y) x y = 1
    ∧ (brush_default l x y).front =
        l.front.set ((l.resolve x y).2 * l.width + (l.resolve x y).1) 1
    ∧ (∀ i : Nat, i ≠ (l.resolve x y).2 * l.width + (l.resolve x y).1 →
        (brush_default l x y).front[i]? = l.front[i]?)
    ∧ (brush_default l x y).scratch = l.scratch
    ∧ (brush_default l x y).show_is_flip = l.show_is_flip := by
  have hr := resolve_lt l x y hl.1 hl.2.1 hl.2.2.1 hl.2.2.2.1
  have hidx : (l.resolve x y).2 * l.width + (l.resolve x y).1 < l.front.length := by
    rw [(wf_lengths l hl).1]
    exact index_lt l.width l.height _ _ hr.1 hr.2
  have hb : brush_default l x y =
      l.with_front (l.front.set ((l.resolve x y).2 * l.width + (l.resolve x y).1) 1) := by
    unfold brush_default
    simp only []
    rw [landscape_set_front_eq, resolve_idem l hl]
  obtain ⟨gw, gh, gq, gs⟩ := geometry_with_front l
    (l.front.set ((l.resolve x y).2 * l.width + (l.resolve x y).1) 1)
  refine ⟨?_, ?_, ?_, ?_, ?_⟩
  · unfold landscape_get
    rw [hb, resolve_congr l _ gw gh gq, front_with_front, gw]
    simp only []
    rw [List.getD_eq_getElem _ _ (by rw [List.length_set]; exact hidx), List.getElem_set_self]
  · rw [hb, front_with_front]
  · intro i hi
    rw [hb, front_with_front, List.getElem?_set_ne (fun h => hi h.symm)]
  · rw [hb, scratch_with_front]
  · rw [hb, gs]

/-- Witness for C7: painting at `(-3, 9)` on the `4 × 4` clamped landscape. -/
theorem brush_default_then_get_witness :
    landscape_get (brush_default clamped4 (-3) 9) (-3) 9 = 1 :=
  (brush_default_then_get clamped4 (by decide) (-3) 9).1

set_option maxRecDepth 100000 in
/-- C8: on the all-dead `8 × 8` landscape `torus8` (`quotient_torus`,
`twod_life_like`, rule `conway`, that is birth bit 3 and survive bits 2 and 3),
`brush_conway_glider` at `(3, 3)` makes exactly the five cells `(2,4)`, `(3,2)`,
`(3,4)`, `(4,3)`, `(4,4)` alive, and after four calls of `landscape_step` the
live cells of `show` are exactly those five cells translated by `(+1, +1)`,
that is `(3,5)`, `(4,3)`, `(4,5)`, `(5,4)`, `(5,5)`; every other cell is `0`. -/
theorem conway_glider_translates :
    (torus8.width = 8 ∧ torus8.height = 8 ∧ torus8.quotient = topology.quotient_torus
      ∧ torus8.automata = evaluator.twod_life_like ∧ torus8.rule = conway
      ∧ conway = 2 ^ (9 + 3) + 2 ^ 2 + 2 ^ 3
      ∧ ∀ v ∈ torus8.flip ++ torus8.flop, v = 0)
    ∧ (∀ x < 8, ∀ y < 8,
        ((brush_conway_glider torus8 3 3).front[y * 8 + x]? = some 1 ↔ (x, y) ∈ glider_cells))
    ∧ binary_cells (brush_conway_glider torus8 3 3).front
    ∧ (∀ x < 8, ∀ y < 8,
        ((landscape_step^[4] (brush_conway_glider torus8 3 3)).front[y * 8 + x]? = some 1 ↔
          (x, y) ∈ glider_cells.map fun c => (c.1 + 1, c.2 + 1)))
    ∧ binary_cells (landscape_step^[4] (brush_conway_glider torus8 3 3)).front
    ∧ (glider_cells.map fun c => (c.1 + 1, c.2 + 1)) = [(3, 5), (4, 3), (4, 5), (5, 4), (5, 5)] := by
  refine ⟨⟨rfl, rfl, rfl, rfl, rfl, ?_, ?_⟩, ?_, ?_, ?_, ?_, ?_⟩ <;> decide

/-! ## Claims on the console output -/

theorem string_join_cons (a : String) (l : List String) :
    String.join (a :: l) = a ++ String.join l := by
  apply String.ext
  simp [String.data_join]

/-- A loop that appends `f i` for the elements that pass a test writes the
texts of the passing elements, in the order of the list. -/
theorem foldl_append_if (c : Nat → Prop) [DecidablePred c] (p : Nat → Bool) (f : Nat → String)
    (l : List Nat) (init : String) (h : ∀ i ∈ l, (c i ↔ p i = true)) :
    l.foldl (fun o i => if c i then o ++ f i else o) init =
      init ++ String.join ((l.filter p).map f) := by
  induction l generalizing init with
  | nil => simp [String.join]
  | cons a l ih =>
    have ha := h a (List.mem_cons_self _ _)
    have hl : ∀ i ∈ l, (c i ↔ p i = true) := fun i hi => h i (List.mem_cons_of_mem _ hi)
    rw [List.foldl_cons, ih _ hl]
    by_cases hc : c a
    · rw [if_pos hc, List.filter_cons_of_pos (ha.mp hc), List.map_cons, string_join_cons,
        String.append_assoc]
    · have hp : ¬(p a = true) := fun hp => hc (ha.mpr hp)
      rw [if_neg hc, List.filter_cons_of_neg hp]

theorem birth_test (rule i : Nat) (hi : i < 9) :
    rule &&& birth_bit i ≠ 0 ↔ rule.testBit (9 + i) = true := by
  unfold birth_bit
  rw [uint32_bit _ (by omega), Nat.and_comm]
  exact two_pow_and_ne_zero rule (9 + i)

theorem survive_test (rule i : Nat) :
    rule &&& (1 <<< i) ≠ 0 ↔ rule.testBit i = true := by
  rw [Nat.one_shiftLeft, Nat.and_comm]
  exact two_pow_and_ne_zero rule i

/-- C12: for every rule, the text `print_lifelike_rule` writes is `B`, then the
decimal digits, in ascending order, of exactly those `k` in `0..8` with bit
`9 + k` of the rule set, then `/S`, then the digits, in ascending order, of
exactly those `k` in `0..8` with bit `k` set, then a newline; for the rule
`conway` the text is `B3/S23` and a newline, the birth set being `{3}` and the
survive set `{2, 3}`. -/
theorem print_lifelike_rule_text (rule : Nat) :
    print_lifelike_rule rule =
      "B" ++ String.join (((List.range 9).filter fun k => rule.testBit (9 + k)).map Nat.repr)
        ++ "/S" ++ String.join (((List.range 9).filter fun k => rule.testBit k).map Nat.repr)
        ++ "\n"
    ∧ (List.range 9).map Nat.repr = ["0", "1", "2", "3", "4", "5", "6", "7", "8"]
    ∧ print_lifelike_rule conway = "B3/S23\n"
    ∧ ((List.range 9).filter fun k => conway.testBit (9 + k)) = [3]
    ∧ ((List.range 9).filter fun k => conway.testBit k) = [2, 3] := by
  refine ⟨?_, by decide, by decide, by decide, by decide⟩
  unfold print_lifelike_rule
  simp only []
  rw [foldl_append_if (fun i => rule &&& birth_bit i ≠ 0) (fun k => rule.testBit (9 + k))
      Nat.repr (List.range 9) "B" (fun i hi => birth_test rule i (List.mem_range.mp hi)),
    foldl_append_if (fun i => rule &&& (1 <<< i) ≠ 0) (fun k => rule.testBit k)
      Nat.repr (List.range 9) _ (fun i _ => survive_test rule i)]

/-! ## The cells stay binary -/

theorem binary_set (b : List Nat) (hb : binary_cells b) (i v : Nat) (hv : v = 0 ∨ v = 1) :
    binary_cells (b.set i v) := by
  intro x hx
  rcases List.mem_or_eq_of_mem_set hx with h | h
  · exact hb x h
  · rw [h]; exact hv

theorem binary_replicate (n : Nat) : binary_cells (List.replicate n 0) := by
  intro x hx
  left
  exact List.eq_of_mem_replicate hx

theorem binary_front (l : landscape) (h : l.binary) : binary_cells l.front := by
  unfold landscape.front
  split_ifs
  · exact h.1
  · exact h.2

theorem binary_scratch (l : landscape) (h : l.binary) : binary_cells l.scratch := by
  unfold landscape.scratch
  split_ifs
  · exact h.2
  · exact h.1

theorem with_front_binary (l : landscape) (h : l.binary) (b : List Nat) (hb : binary_cells b) :
    (l.with_front b).binary := by
  unfold landscape.with_front landscape.binary
  split_ifs
  · exact ⟨hb, h.2⟩
  · exact ⟨h.1, hb⟩

theorem with_scratch_binary (l : landscape) (h : l.binary) (b : List Nat)
    (hb : binary_cells b) : (l.with_scratch b).binary := by
  unfold landscape.with_scratch landscape.binary
  split_ifs
  · exact ⟨h.1, hb⟩
  · exact ⟨hb, h.2⟩

theorem landscape_set_binary (l : landscape) (h : l.binary) (x y : Int) (v : Nat)
    (hv : v = 0 ∨ v = 1) : (landscape_set l x y v).binary := by
  rw [landscape_set_eq]
  exact with_scratch_binary l h _ (binary_set _ (binary_scratch l h) _ _ hv)

theorem landscape_set_front_binary (l : landscape) (h : l.binary) (x y : Int) (v : Nat)
    (hv : v = 0 ∨ v = 1) : (landscape_set_front l x y v).binary := by
  rw [landscape_set_front_eq]
  exact with_front_binary l h _ (binary_set _ (binary_front l h) _ _ hv)

/-- The value an evaluator writes is `0` or `1`. -/
theorem automata_val_binary (l : landscape) (h : l.binary) (x y : Int) (rule : Nat) :
    l.automata_val x y rule = 0 ∨ l.automata_val x y rule = 1 := by
  unfold landscape.automata_val
  cases l.automata with
  | twod_life_like =>
    simp only []
    unfold twod_life_like_val
    simp only []
    split_ifs <;> simp
  | oned =>
    simp only []
    unfold oned_val
    simp only []
    split_ifs
    · have := landscape_get_le_one l (binary_front l h) x y
      omega
    · right; rfl
    · left; rfl

theorem run_automata_binary (l : landscape) (h : l.binary) (x y : Int) (rule : Nat) :
    (l.run_automata x y rule).binary := by
  rw [run_automata_eq]
  exact landscape_set_binary l h x y _ (automata_val_binary l h x y rule)

theorem foldl_binary {α : Type} (f : landscape → α → landscape)
    (hf : ∀ t a, t.binary → (f t a).binary) (xs : List α) (l : landscape) (h : l.binary) :
    (xs.foldl f l).binary := by
  induction xs generalizing l with
  | nil => exact h
  | cons a xs ih => exact ih _ (hf l a h)

theorem landscape_step_binary (l : landscape) (h : l.binary) : (landscape_step l).binary := by
  unfold landscape_step
  simp only []
  have h1 : ((List.range l.width).foldl
      (fun s x => (List.range l.height).foldl
        (fun t y => t.run_automata (x : Int) (y : Int) t.rule) s) l).binary := by
    apply foldl_binary _ _ _ _ h
    intro t x ht
    apply foldl_binary _ _ _ _ ht
    intro u y hu
    exact run_automata_binary u hu _ _ _
  exact h1

theorem brush_default_binary (l : landscape) (h : l.binary) (x y : Int) :
    (brush_default l x y).binary := by
  unfold brush_default
  exact landscape_set_front_binary l h _ _ 1 (Or.inr rfl)

theorem brush_conway_glider_binary (l : landscape) (h : l.binary) (x y : Int) :
    (brush_conway_glider l x y).binary := by
  unfold brush_conway_glider
  simp only []
  apply landscape_set_front_binary _ _ _ _ 1 (Or.inr rfl)
  apply landscape_set_front_binary _ _ _ _ 1 (Or.inr rfl)
  apply landscape_set_front_binary _ _ _ _ 1 (Or.inr rfl)
  apply landscape_set_front_binary _ _ _ _ 1 (Or.inr rfl)
  exact landscape_set_front_binary l h _ _ 1 (Or.inr rfl)

theorem buf_write_binary (b : List Nat) (hb : binary_cells b) (i : Int) (v : Nat)
    (hv : v = 0 ∨ v = 1) : binary_cells (buf_write b i v) := by
  unfold buf_write
  split_ifs
  · exact binary_set b hb _ v hv
  · exact hb

theorem memset_zero_binary (b : List Nat) (hb : binary_cells b) (n : Nat) :
    binary_cells (memset_zero b n) := by
  unfold memset_zero
  intro x hx
  rcases List.mem_append.mp hx with h | h
  · left
    exact List.eq_of_mem_replicate h
  · exact hb x (List.mem_of_mem_drop h)

theorem pointer_motion_binary (l : landscape) (h : l.binary) (w : wl_state) (cell_width : Nat)
    (fx fy : Int) : (pointer_motion l w cell_width fx fy).1.binary := by
  unfold pointer_motion
  simp only []
  split_ifs
  · exact h
  · exact with_front_binary l h _ (buf_write_binary _ (binary_front l h) _ 1 (Or.inr rfl))
  · exact with_front_binary l h _ (buf_write_binary _ (binary_front l h) _ 0 (Or.inl rfl))
  · exact h

theorem binary_with_rule (l : landscape) (r : Nat) (h : l.binary) :
    ({ l with rule := r } : landscape).binary :=
  ⟨h.1, h.2⟩

theorem run_if_binary (c : Bool) (body : session → session)
    (hbody : ∀ s : session, s.ls.binary → (body s).ls.binary) (s : session)
    (h : s.ls.binary) : (run_if c body s).ls.binary := by
  unfold run_if
  split_ifs
  · exact hbody s h
  · exact h

theorem on_key_r_binary (s : session) (h : s.ls.binary) : (on_key_r s).ls.binary := by
  unfold on_key_r
  simp only []
  have h1 : ({ s.ls with
      flip := memset_zero s.ls.flip (size_t_mul s.ls.width s.ls.height),
      flop := memset_zero s.ls.flop (size_t_mul s.ls.width s.ls.height) } : landscape).binary :=
    ⟨memset_zero_binary _ h.1 _, memset_zero_binary _ h.2 _⟩
  split_ifs
  · exact with_front_binary _ h1 _ (binary_set _ (binary_front _ h1) _ 1 (Or.inr rfl))
  · exact h1

theorem on_key_p_binary (s : session) (h : s.ls.binary) : (on_key_p s).ls.binary := by
  unfold on_key_p
  simp only []
  apply with_front_binary _ h
  apply buf_write_binary _ (binary_front _ h)
  split_ifs
  · right; rfl
  · left; rfl

theorem on_key_g_binary (s : session) (h : s.ls.binary) : (on_key_g s).ls.binary :=
  ⟨h.1, h.2⟩

theorem on_key_j_binary (s : session) (h : s.ls.binary) : (on_key_j s).ls.binary :=
  ⟨h.1, h.2⟩

theorem on_key_k_binary (s : session) (h : s.ls.binary) : (on_key_k s).ls.binary :=
  ⟨h.1, h.2⟩

theorem on_key_h_binary (s : session) (h : s.ls.binary) : (on_key_h s).ls.binary :=
  ⟨h.1, h.2⟩

theorem on_key_l_binary (s : session) (h : s.ls.binary) : (on_key_l s).ls.binary :=
  ⟨h.1, h.2⟩

theorem on_key_space_binary (s : session) (h : s.ls.binary) : (on_key_space s).ls.binary :=
  ⟨h.1, h.2⟩

theorem on_key_d_binary (s : session) (h : s.ls.binary) : (on_key_d s).ls.binary :=
  ⟨h.1, h.2⟩

theorem on_key_esc_binary (s : session) (h : s.ls.binary) : (on_key_esc s).ls.binary :=
  ⟨h.1, h.2⟩

theorem on_key_c_binary (s : session) (h : s.ls.binary) : (on_key_c s).ls.binary :=
  binary_with_rule s.ls conway h

theorem on_key_2_binary (s : session) (h : s.ls.binary) : (on_key_2 s).ls.binary :=
  ⟨h.1, h.2⟩

theorem on_key_1_binary (s : session) (h : s.ls.binary) : (on_key_1 s).ls.binary :=
  ⟨h.1, h.2⟩

theorem report_rule_binary (s : session) (h : s.ls.binary) : (report_rule s).ls.binary := by
  unfold report_rule
  split_ifs <;> exact ⟨h.1, h.2⟩

theorem on_key_equal_binary (s : session) (h : s.ls.binary) : (on_key_equal s).ls.binary := by
  unfold on_key_equal
  apply report_rule_binary
  exact binary_with_rule s.ls _ h

theorem on_key_minus_binary (s : session) (h : s.ls.binary) : (on_key_minus s).ls.binary := by
  unfold on_key_minus
  apply report_rule_binary
  exact binary_with_rule s.ls _ h

theorem do_step_binary (s : session) (h : s.ls.binary) : (do_step s).ls.binary := by
  unfold do_step
  exact landscape_step_binary s.ls h

/-- Every key leaves the cells binary. -/
theorem keyboard_handle_key_binary (s : session) (key state : Nat) (h : s.ls.binary) :
    (keyboard_handle_key s key state).ls.binary := by
  have h9 : (run_if (key_pressed key state KEY_D) on_key_d
      (run_if (key_pressed key state KEY_SPACE) on_key_space
      (run_if (key_pressed key state KEY_L) on_key_l
      (run_if (key_pressed key state KEY_H) on_key_h
      (run_if (key_pressed key state KEY_K) on_key_k
      (run_if (key_pressed key state KEY_J) on_key_j
      (run_if (key_pressed key state KEY_G) on_key_g
      (run_if (key_pressed key state KEY_P) on_key_p
      (run_if (key_pressed key state KEY_R) on_key_r s))))))))).ls.binary := by
    apply run_if_binary _ _ on_key_d_binary
    apply run_if_binary _ _ on_key_space_binary
    apply run_if_binary _ _ on_key_l_binary
    apply run_if_binary _ _ on_key_h_binary
    apply run_if_binary _ _ on_key_k_binary
    apply run_if_binary _ _ on_key_j_binary
    apply run_if_binary _ _ on_key_g_binary
    apply run_if_binary _ _ on_key_p_binary
    exact run_if_binary _ _ on_key_r_binary s h
  unfold keyboard_handle_key
  simp only []
  split_ifs
  · exact do_step_binary _ h9
  · apply run_if_binary _ _ on_key_minus_binary
    apply run_if_binary _ _ on_key_equal_binary
    apply run_if_binary _ _ on_key_1_binary
    apply run_if_binary _ _ on_key_2_binary
    apply run_if_binary _ _ on_key_c_binary
    exact run_if_binary _ _ on_key_esc_binary _ h9

/-- C11: the predicate "every cell of both `flip` and `flop` is `0` or `1`"
holds after a successful `landscape_init_memory` (which succeeds when both
allocations do), and every operation that writes cells preserves it:
`landscape_step` (whichever evaluator is active, `twod_life_like` or `oned`),
`brush_default`, `brush_conway_glider`, `pointer_motion` (whichever button is
held) and `keyboard_handle_key` for every key, in particular the `KEY_P` toggle
and the `KEY_R` reset. -/
theorem cells_stay_binary (l : landscape) (h : l.binary) :
    (∀ m : landscape, ∃ r : landscape,
      landscape_init_memory m true true = Except.ok r ∧ r.binary)
    ∧ (landscape_step l).binary
    ∧ (l.automata = evaluator.twod_life_like → (landscape_step l).binary)
    ∧ (l.automata = evaluator.oned → (landscape_step l).binary)
    ∧ (∀ x y : Int, (brush_default l x y).binary)
    ∧ (∀ x y : Int, (brush_conway_glider l x y).binary)
    ∧ (∀ (w : wl_state) (cell_width : Nat) (fx fy : Int),
        (pointer_motion l w cell_width fx fy).1.binary)
    ∧ (∀ (w : wl_state) (out err : String) (key state : Nat),
        (keyboard_handle_key ⟨l, w, out, err⟩ key state).ls.binary)
    ∧ (∀ (w : wl_state) (out err : String), (on_key_p ⟨l, w, out, err⟩).ls.binary)
    ∧ (∀ (w : wl_state) (out err : String), (on_key_r ⟨l, w, out, err⟩).ls.binary) := by
  refine ⟨?_, landscape_step_binary l h, fun _ => landscape_step_binary l h,
    fun _ => landscape_step_binary l h, brush_default_binary l h,
    brush_conway_glider_binary l h, pointer_motion_binary l h, ?_, ?_, ?_⟩
  · intro m
    refine ⟨_, rfl, ?_⟩
    exact ⟨binary_replicate _, binary_replicate _⟩
  · intro w out err key state
    exact keyboard_handle_key_binary _ key state h
  · intro w out err
    exact on_key_p_binary _ h
  · intro w out err
    exact on_key_r_binary _ h

/-- Witness for C11: the `KEY_P` toggle on the paused glider session. -/
theorem cells_stay_binary_witness :
    (keyboard_handle_key ⟨paused_glider.ls, paused_glider.wl, "", ""⟩ KEY_P 1).ls.binary :=
  (cells_stay_binary paused_glider.ls (by decide)).2.2.2.2.2.2.2.1 paused_glider.wl "" ""
    KEY_P 1

/-! ## The step key -/

theorem run_if_other_key (state k : Nat) (hk : (KEY_N == k) = false) (f : session → session)
    (t : session) : run_if (key_pressed KEY_N state k) f t = t := by
  unfold run_if key_pressed
  rw [hk]
  rfl

/-- What `keyboard_handle_key` does on a press of `KEY_N`: nothing when the
simulation is paused, one `landscape_step` when it is not. -/
theorem keyboard_handle_key_n (s : session) (state : Nat) (hs : state ≠ 0) :
    keyboard_handle_key s KEY_N state = if s.wl.paused = true then s else do_step s := by
  have hp : key_pressed KEY_N state KEY_N = true := by
    unfold key_pressed
    simp [hs]
  unfold keyboard_handle_key
  simp only []
  rw [run_if_other_key state KEY_R rfl, run_if_other_key state KEY_P rfl,
    run_if_other_key state KEY_G rfl, run_if_other_key state KEY_J rfl,
    run_if_other_key state KEY_K rfl, run_if_other_key state KEY_H rfl,
    run_if_other_key state KEY_L rfl, run_if_other_key state KEY_SPACE rfl,
    run_if_other_key state KEY_D rfl, hp]
  cases hpa : s.wl.paused
  · simp
  · simp only [Bool.not_true, Bool.and_false, Bool.false_eq_true, if_false, if_true]
    rw [run_if_other_key state KEY_ESC rfl, run_if_other_key state KEY_C rfl,
      run_if_other_key state KEY_2 rfl, run_if_other_key state KEY_1 rfl,
      run_if_other_key state KEY_EQUAL rfl, run_if_other_key state KEY_MINUS rfl]

set_option maxRecDepth 100000 in
/-- C13 (the code at the failing input): on the paused session `paused_glider`
a press of `KEY_N` leaves the session as it is, although one `landscape_step`
would change the landscape; on the same session with the simulation running
the press makes one `landscape_step`.  The claim says the opposite on both
counts. -/
theorem step_key_steps_only_when_running :
    paused_glider.wl.paused = true
    ∧ keyboard_handle_key paused_glider KEY_N 1 = paused_glider
    ∧ landscape_step paused_glider.ls ≠ paused_glider.ls
    ∧ running_glider.wl.paused = false
    ∧ (keyboard_handle_key running_glider KEY_N 1).ls = landscape_step running_glider.ls := by
  refine ⟨rfl, ?_, by decide, rfl, ?_⟩
  · rw [keyboard_handle_key_n paused_glider 1 (by decide)]
    rfl
  · rw [keyboard_handle_key_n running_glider 1 (by decide)]
    rfl

end CellularLandscapes
